import Mathlib

/-!
# Verification of the Code-Analyser analysis and scoring engine

Shallow embedding of the repository's analysis/scoring core:

* `src/core/severity.py` — issue scoring and the overall repository score;
* `src/core/analyzers/python_analyzer.py` — the Python-language analyzer
  (issue generation after parsing; `ast.parse` results are modelled as input
  data, since the Python `ast` library itself is external to the repository);
* `src/core/analyzers/js_analyzer.py` — the JS analyzer's lexical security
  scanner, duplication normalisation and the cross-file duplication phase;
* `src/core/analyzers/manager.py` — the `analyze_repo` orchestrator
  (parameterised by the per-language analyzer outputs);
* `src/core/dep_graph.py` — edge weighting, node hotness and hotspots.

Modelling conventions:

* Python `dict`s are modelled as insertion-ordered association lists, which is
  the observable behaviour of CPython ≥ 3.7 dicts.  Python `set` iteration
  order is implementation-defined (hash-dependent); where the source iterates
  a `set`, the embedding takes the enumeration order as an explicit argument.
* Python floats are modelled as exact rationals; `int(x)` is truncation
  toward zero.
* Issue ids are produced by `hashlib.sha256(..).hexdigest()` prefixes, so
  SHA-256 is implemented here in full (over `Nat`, with explicit `% 2^32`).
* Textual summaries are presentation-only and are not modelled; no claim
  mentions them.
-/

/-! ## Bit-level helpers (32-bit words as `Nat` with explicit reduction) -/

def w32 (n : Nat) : Nat := n % 4294967296

def rotr32 (n x : Nat) : Nat := w32 ((x >>> n) ||| (x <<< (32 - n)))

def bSig0 (x : Nat) : Nat := rotr32 2 x ^^^ rotr32 13 x ^^^ rotr32 22 x

def bSig1 (x : Nat) : Nat := rotr32 6 x ^^^ rotr32 11 x ^^^ rotr32 25 x

def sSig0 (x : Nat) : Nat := rotr32 7 x ^^^ rotr32 18 x ^^^ (x >>> 3)

def sSig1 (x : Nat) : Nat := rotr32 17 x ^^^ rotr32 19 x ^^^ (x >>> 10)

/-! ## SHA-256 (FIPS 180-4), over byte lists -/

def sha256K : List Nat :=
  [1116352408, 1899447441, 3049323471, 3921009573, 961987163,
   1508970993, 2453635748, 2870763221, 3624381080, 310598401,
   607225278, 1426881987, 1925078388, 2162078206, 2614888103,
   3248222580, 3835390401, 4022224774, 264347078, 604807628,
   770255983, 1249150122, 1555081692, 1996064986, 2554220882,
   2821834349, 2952996808, 3210313671, 3336571891, 3584528711,
   113926993, 338241895, 666307205, 773529912, 1294757372,
   1396182291, 1695183700, 1986661051, 2177026350, 2456956037,
   2730485921, 2820302411, 3259730800, 3345764771, 3516065817,
   3600352804, 4094571909, 275423344, 430227734, 506948616,
   659060556, 883997877, 958139571, 1322822218, 1537002063,
   1747873779, 1955562222, 2024104815, 2227730452, 2361852424,
   2428436474, 2756734187, 3204031479, 3329325298]

structure Hash8 where
  a : Nat
  b : Nat
  c : Nat
  d : Nat
  e : Nat
  f : Nat
  g : Nat
  h : Nat
deriving Repr, DecidableEq

def sha256H0 : Hash8 :=
  ⟨1779033703, 3144134277, 1013904242, 2773480762,
   1359893119, 2600822924, 528734635, 1541459225⟩

/-- Message padding: append `0x80`, zeros to 56 mod 64, then the 64-bit
big-endian bit length. -/
def sha256pad (msg : List Nat) : List Nat :=
  let L := msg.length
  let k := (119 - L % 64) % 64
  msg ++ [128] ++ List.replicate k 0 ++
    (List.range 8).map (fun i => ((8 * L) >>> (8 * (7 - i))) % 256)

/-- Split into 64-byte blocks (fuel-based structural recursion so the kernel
can evaluate it). -/
def chunks64Aux : Nat → List Nat → List (List Nat)
  | 0, _ => []
  | _, [] => []
  | fuel + 1, l => l.take 64 :: chunks64Aux fuel (l.drop 64)

def chunks64 (l : List Nat) : List (List Nat) := chunks64Aux l.length l

/-- The 16 initial 32-bit big-endian words of a 64-byte block. -/
def blockWords (block : List Nat) : List Nat :=
  (List.range 16).map (fun i =>
    (block.getD (4 * i) 0 <<< 24) ||| (block.getD (4 * i + 1) 0 <<< 16) |||
    (block.getD (4 * i + 2) 0 <<< 8) ||| block.getD (4 * i + 3) 0)

/-- Message-schedule extension; `rev` holds the words produced so far, most
recent first. -/
def scheduleAux : Nat → List Nat → List Nat
  | 0, rev => rev
  | n + 1, rev =>
      scheduleAux n
        (w32 (sSig1 (rev.getD 1 0) + rev.getD 6 0 +
              sSig0 (rev.getD 14 0) + rev.getD 15 0) :: rev)

def schedule (ws : List Nat) : List Nat := (scheduleAux 48 ws.reverse).reverse

def compressStep (st : Hash8) (kw : Nat × Nat) : Hash8 :=
  let s1 := bSig1 st.e
  let ch := (st.e &&& st.f) ^^^ ((st.e ^^^ 4294967295) &&& st.g)
  let t1 := w32 (st.h + s1 + ch + kw.1 + kw.2)
  let s0 := bSig0 st.a
  let mj := (st.a &&& st.b) ^^^ (st.a &&& st.c) ^^^ (st.b &&& st.c)
  let t2 := w32 (s0 + mj)
  ⟨w32 (t1 + t2), st.a, st.b, st.c, w32 (st.d + t1), st.e, st.f, st.g⟩

def processBlock (H : Hash8) (block : List Nat) : Hash8 :=
  let st := (sha256K.zip (schedule (blockWords block))).foldl compressStep H
  ⟨w32 (H.a + st.a), w32 (H.b + st.b), w32 (H.c + st.c), w32 (H.d + st.d),
   w32 (H.e + st.e), w32 (H.f + st.f), w32 (H.g + st.g), w32 (H.h + st.h)⟩

def hexDigit (n : Nat) : Char :=
  if n < 10 then Char.ofNat (48 + n) else Char.ofNat (87 + n)

def hex32 (n : Nat) : List Char :=
  (List.range 8).map (fun i => hexDigit ((n >>> (4 * (7 - i))) % 16))

/-- Lowercase hex digest of a byte-list message, as `hashlib`'s
`hexdigest()` returns it. -/
def sha256hexBytes (msg : List Nat) : String :=
  let Hf := (chunks64 (sha256pad msg)).foldl processBlock sha256H0
  String.mk (hex32 Hf.a ++ hex32 Hf.b ++ hex32 Hf.c ++ hex32 Hf.d ++
             hex32 Hf.e ++ hex32 Hf.f ++ hex32 Hf.g ++ hex32 Hf.h)

/-- UTF-8 encoding of one scalar value (Python `str.encode("utf-8")`). -/
def utf8Char (c : Char) : List Nat :=
  let n := c.toNat
  if n < 128 then [n]
  else if n < 2048 then [192 + n / 64, 128 + n % 64]
  else if n < 65536 then [224 + n / 4096, 128 + (n / 64) % 64, 128 + n % 64]
  else [240 + n / 262144, 128 + (n / 4096) % 64, 128 + (n / 64) % 64,
        128 + n % 64]

def utf8 (s : String) : List Nat := s.data.flatMap utf8Char

/-- `hashlib.sha256(s.encode("utf-8")).hexdigest()`. -/
def sha256hex (s : String) : String := sha256hexBytes (utf8 s)

set_option maxRecDepth 1000000

/-- Sanity: FIPS 180-4 test vector for the empty message. -/
theorem sha256hex_empty :
    sha256hex "" =
      "e3b0c44298fc1c149afbf4c8996fb92427ae41e4649b934ca495991b7852b855" := by
  decide

/-- Sanity: FIPS 180-4 test vector for "abc". -/
theorem sha256hex_abc :
    sha256hex "abc" =
      "ba7816bf8f01cfea414140de5dae2223b00361a396177a9cb410ff61f20015ad" := by
  decide

attribute [irreducible] sha256hex

/-! ## Python string helpers

ASCII models of the `str` methods the analyzers use.  All strings the
analyzers feed into these are ASCII in the modelled scenarios. -/

/-- Python whitespace (`str.strip`, `\s` in `re` — ASCII part). -/
def isPySpace (c : Char) : Bool :=
  c = ' ' || c = '\t' || c = '\n' || c = '\x0d' || c = '\x0b' || c = '\x0c'

/-- Python `str.strip()` (no arguments): drop leading and trailing
whitespace. -/
def pystrip (s : String) : String :=
  String.mk (((s.data.dropWhile isPySpace).reverse.dropWhile isPySpace).reverse)

/-- Python `str.lower()` (ASCII). -/
def pyLower (s : String) : String :=
  String.mk (s.data.map (fun c =>
    if 'A' ≤ c && c ≤ 'Z' then Char.ofNat (c.toNat + 32) else c))

def isPrefixOfChars : List Char → List Char → Bool
  | [], _ => true
  | _ :: _, [] => false
  | p :: ps, c :: cs => p = c && isPrefixOfChars ps cs

/-- Split a character list at every separator occurrence (the result always
has one more piece than there are separators). -/
def chSplit (sep : Char) : List Char → List (List Char)
  | [] => [[]]
  | c :: cs =>
      if c = sep then [] :: chSplit sep cs
      else
        match chSplit sep cs with
        | [] => [[c]]
        | g :: gs => (c :: g) :: gs

/-- Python `str.startswith(pre)`. -/
def pyStartsWith (s pre : String) : Bool := isPrefixOfChars pre.data s.data

/-- Python `str.splitlines()` restricted to `\n` separators: no trailing
empty piece, and the empty string yields `[]`. -/
def pysplitlines (s : String) : List String :=
  if s.data = [] then []
  else
    let parts := (chSplit '\n' s.data).map String.mk
    if s.data.getLast? = some '\n' then parts.dropLast else parts

/-- Non-overlapping substring count, scanning left to right; on a match the
scan advances past the whole pattern (Python `str.count` for a non-empty
pattern). -/
def countSubAux (pat : List Char) : Nat → List Char → Nat
  | 0, _ => 0
  | _, [] => 0
  | fuel + 1, c :: cs =>
      if isPrefixOfChars pat (c :: cs) then
        1 + countSubAux pat fuel (cs.drop (pat.length - 1))
      else countSubAux pat fuel cs

def pyCount (s pat : String) : Nat := countSubAux pat.data s.data.length s.data

/-- Python `int(x)` on a real value: truncation toward zero (floats are
modelled as exact rationals). -/
def pyIntTrunc (q : ℚ) : ℤ := if 0 ≤ q then ⌊q⌋ else ⌈q⌉

/-- Lookup in an insertion-ordered association list with a default —
Python `dict.get(key, default)`. -/
def assocGetD {β : Type} : List (String × β) → String → β → β
  | [], _, d => d
  | (k, v) :: t, key, d => if k = key then v else assocGetD t key d

/-! ## The issue record

Issues are Python dicts in the source; optional fields model keys that some
producers omit (`dict.get` with a default reads them back). -/

structure Issue where
  id : String := ""
  category : String := ""
  severity : Option String := none
  file : Option String := none
  lineno : Option Int := none
  message : String := ""
  evidence : Option String := none
  suggestedFix : Option String := none
  occurrences : Option Int := none
  score : Option Int := none
deriving Repr, DecidableEq

/-! ## `src/core/severity.py` -/

/-- `severity_to_base_score`: map textual severity to the base score;
`mapping.get(severity.lower(), 40)`. -/
def severity_to_base_score (severity : String) : Int :=
  if pyLower severity = "critical" then 95
  else if pyLower severity = "high" then 75
  else if pyLower severity = "medium" then 40
  else if pyLower severity = "low" then 10
  else 40

/-- `compute_issue_score(issue, file_hotness=1, historical_weight=1.0)`. -/
def compute_issue_score (issue : Issue) (file_hotness : Int)
    (historical_weight : ℚ) : Int :=
  let base := severity_to_base_score (issue.severity.getD "medium")
  let occurrences := issue.occurrences.getD 1
  let penalty := 10 * (occurrences - 1)
  let hotness_factor := min 3 file_hotness
  let score := base + hotness_factor * 5 - penalty
  max 0 (min 100 (pyIntTrunc ((score : ℚ) * historical_weight)))

/-- `compute_overall_score(issues, repo_size, trend_factor=1.0)`. -/
def compute_overall_score (issues : List Issue) (repo_size : Int)
    (trend_factor : ℚ) : Int :=
  if issues = [] ∨ repo_size ≤ 0 then 100
  else
    let avg_issue_score : ℚ :=
      ((issues.map (fun i => i.score.getD 40)).sum : ℤ) / (issues.length : ℚ)
    let normalized_penalty : ℚ := avg_issue_score / 100 * ((min repo_size 50 : ℤ) : ℚ)
    let overall : ℚ := 100 - normalized_penalty * trend_factor
    max 0 (min 100 (pyIntTrunc overall))

/-- `enrich_issues_with_scores(issues, file_hotness_map)`: set each issue's
score from its severity and its file's hotness (defaulting to 1), with the
default `historical_weight = 1.0`. -/
def enrich_issues_with_scores (issues : List Issue)
    (file_hotness_map : List (String × Int)) : List Issue :=
  issues.map (fun issue =>
    let hotness := assocGetD file_hotness_map (issue.file.getD "") 1
    { issue with score := some (compute_issue_score issue hotness 1) })

/-! ### Scoring lemmas shared by several claims -/

theorem pyIntTrunc_intCast (n : ℤ) : pyIntTrunc (n : ℚ) = n := by
  unfold pyIntTrunc
  split
  · exact Int.floor_intCast n
  · exact Int.ceil_intCast n

theorem pyIntTrunc_mono {q q' : ℚ} (h : q ≤ q') : pyIntTrunc q ≤ pyIntTrunc q' := by
  unfold pyIntTrunc
  split
  · rename_i hq
    rw [if_pos (le_trans hq h)]
    exact Int.floor_le_floor h
  · rename_i hq
    split
    · rename_i hq'
      calc ⌈q⌉ ≤ ⌈(0 : ℚ)⌉ := Int.ceil_le_ceil (le_of_not_le hq)
        _ = 0 := by simp
        _ ≤ ⌊q'⌋ := Int.floor_nonneg.mpr hq'
    · exact Int.ceil_le_ceil h

/-- With the default `historical_weight = 1.0` the issue score is the clamped
integer formula. -/
theorem compute_issue_score_one (issue : Issue) (h : Int) :
    compute_issue_score issue h 1 =
      max 0 (min 100
        (severity_to_base_score (issue.severity.getD "medium") + min 3 h * 5 -
          10 * (issue.occurrences.getD 1 - 1))) := by
  simp only [compute_issue_score, mul_one, pyIntTrunc_intCast]


theorem clamp_mono {a b : Int} (h : a ≤ b) :
    max 0 (min 100 a) ≤ max 0 (min 100 b) :=
  max_le_max (le_refl 0) (min_le_min (le_refl 100) h)

theorem compute_issue_score_mono_base (x y : Issue) (h : Int)
    (hbase : severity_to_base_score (x.severity.getD "medium") ≤
             severity_to_base_score (y.severity.getD "medium"))
    (hocc : x.occurrences = y.occurrences) :
    compute_issue_score x h 1 ≤ compute_issue_score y h 1 := by
  rw [compute_issue_score_one, compute_issue_score_one, hocc]
  exact clamp_mono (by linarith)

theorem compute_issue_score_anti_occ (x y : Issue) (h : Int)
    (hsev : x.severity = y.severity)
    (hocc : y.occurrences.getD 1 = x.occurrences.getD 1 + 1) :
    compute_issue_score y h 1 ≤ compute_issue_score x h 1 := by
  rw [compute_issue_score_one, compute_issue_score_one, hsev, hocc]
  exact clamp_mono (by linarith)

theorem enrich_scores (issues : List Issue) (hmap : List (String × Int)) :
    ((enrich_issues_with_scores issues hmap).map (fun i => i.score.getD 40)).sum =
      (issues.map (fun i =>
        compute_issue_score i (assocGetD hmap (i.file.getD "") 1) 1)).sum := by
  unfold enrich_issues_with_scores
  rw [List.map_map]
  rfl

theorem enrich_length (issues : List Issue) (hmap : List (String × Int)) :
    (enrich_issues_with_scores issues hmap).length = issues.length := by
  simp [enrich_issues_with_scores]

theorem sum_map_insert (F : Issue → Int) (pre post : List Issue) (a : Issue) :
    ((pre ++ a :: post).map F).sum = (pre.map F).sum + F a + (post.map F).sum := by
  simp [List.sum_append]
  ring

/-- The overall score is antitone in the per-issue score sum, all else fixed
(the issue lists must have the same length and a non-negative trend factor). -/
theorem compute_overall_score_anti (l₁ l₂ : List Issue) (rs : Int) (trend : ℚ)
    (htrend : 0 ≤ trend) (hlen : l₁.length = l₂.length)
    (hsum : (l₁.map (fun i => i.score.getD 40)).sum ≤
            (l₂.map (fun i => i.score.getD 40)).sum) :
    compute_overall_score l₂ rs trend ≤ compute_overall_score l₁ rs trend := by
  simp only [compute_overall_score]
  rcases le_or_lt rs 0 with hrs | hrs
  · rw [if_pos (Or.inr hrs), if_pos (Or.inr hrs)]
  · rcases eq_or_ne l₁ [] with h1 | h1
    · have h2 : l₂ = [] := by
        cases l₂ with
        | nil => rfl
        | cons a t => subst h1; simp at hlen
      rw [if_pos (Or.inl h1), if_pos (Or.inl h2)]
    · have h2 : l₂ ≠ [] := by
        intro h2
        apply h1
        cases l₁ with
        | nil => rfl
        | cons a t => subst h2; simp at hlen
      rw [if_neg (by push_neg; exact ⟨h2, hrs⟩), if_neg (by push_neg; exact ⟨h1, hrs⟩)]
      apply clamp_mono
      apply pyIntTrunc_mono
      apply sub_le_sub_left
      rw [← hlen]
      have hn : (0 : ℚ) < (l₁.length : ℚ) := by
        exact_mod_cast List.length_pos.mpr h1
      have hm : (0 : ℚ) ≤ ((min rs 50 : ℤ) : ℚ) := by
        have : (0 : ℤ) ≤ min rs 50 := le_min (le_of_lt hrs) (by norm_num)
        exact_mod_cast this
      have hsq : (((l₁.map (fun i => i.score.getD 40)).sum : ℤ) : ℚ) ≤
                 (((l₂.map (fun i => i.score.getD 40)).sum : ℤ) : ℚ) := by
        exact_mod_cast hsum
      gcongr

/-- C1 (amended): for every issue and file hotness, the numeric score with the
default historical weight equals `base + min(3, hotness)*5 − 10*(occurrences−1)`
clamped to [0,100], where the base is 95 for critical, 75 for high, 40 for
medium, 10 for low — and any other severity string, including "missing", gets
the default base 40 (there is no separate path for "missing"). -/
theorem C1_issue_score_formula (issue : Issue) (h : Int) :
    compute_issue_score issue h 1 =
      max 0 (min 100
        ((if pyLower (issue.severity.getD "medium") = "critical" then 95
          else if pyLower (issue.severity.getD "medium") = "high" then 75
          else if pyLower (issue.severity.getD "medium") = "medium" then 40
          else if pyLower (issue.severity.getD "medium") = "low" then 10
          else (40 : Int))
         + min 3 h * 5 - 10 * (issue.occurrences.getD 1 - 1))) := by
  rw [compute_issue_score_one]
  rfl

/-- C1 counterexample: an issue of severity "missing" does NOT follow its own
path without base bonus — it is scored through the default branch with base 40
(the same base as "medium"): with zero hotness and one occurrence its score is
40, not 0. -/
theorem C1_missing_base_cex :
    compute_issue_score { severity := some "missing" } 0 1 = 40 ∧
    severity_to_base_score "missing" = severity_to_base_score "medium" ∧
    (40 : Int) ≠ 0 := by
  refine ⟨?_, by decide, by decide⟩
  rw [compute_issue_score_one]
  with_unfolding_all decide

/-- Overall repository score, written as the specification states it
(`Modelled from the spec`'s wording, to be compared with
`compute_overall_score`): `100 − (average issue score / 100 × min(repo_size,
50)) × trend_factor`, truncated to an integer and clamped to [0,100]; 100 when
there are no issues or the repo size is non-positive. -/
def overallScoreSpec (issues : List Issue) (repo_size : Int) (trend : ℚ) : Int :=
  if issues = [] ∨ repo_size ≤ 0 then 100
  else
    max 0 (min 100 (pyIntTrunc (100 -
      ((((issues.map (fun i => i.score.getD 40)).sum : ℤ) : ℚ) / (issues.length : ℚ)) / 100
        * ((min repo_size 50 : ℤ) : ℚ) * trend)))

/-- C2: for every list of scored issues, repo size and trend factor, the
overall repository score equals `100 − (average issue score / 100 ×
min(repo_size, 50)) × trend_factor` truncated and clamped to [0,100]; and it
is exactly 100 whenever the issue list is empty or the repo size is not
positive. -/
theorem C2_overall_score (issues : List Issue) (rs : Int) (trend : ℚ) :
    compute_overall_score issues rs trend = overallScoreSpec issues rs trend ∧
    ((issues = [] ∨ rs ≤ 0) → compute_overall_score issues rs trend = 100) := by
  constructor
  · rfl
  · intro h
    unfold compute_overall_score
    rw [if_pos h]

/-- Witness for C2 at a concrete input. -/
theorem C2_overall_score_witness :
    compute_overall_score [] 0 1 = overallScoreSpec [] 0 1 ∧
    compute_overall_score [] 0 1 = 100 :=
  ⟨(C2_overall_score [] 0 1).1, (C2_overall_score [] 0 1).2 (Or.inl rfl)⟩

/-- C3 (amended): with a non-negative trend factor, raising one issue's
severity base (e.g. low→medium→high→critical) never yields a strictly larger
overall score from `enrich_issues_with_scores` followed by
`compute_overall_score`; but raising that issue's occurrence count by one
never yields a strictly SMALLER overall score — each extra occurrence lowers
the issue's own score by 10 before clamping, which lowers the average and
thereby weakly raises the overall repository score. -/
theorem C3_monotonicity (pre post : List Issue) (x : Issue) (s' : String)
    (hmap : List (String × Int)) (rs : Int) (trend : ℚ) (htrend : 0 ≤ trend) :
    (severity_to_base_score (x.severity.getD "medium") ≤ severity_to_base_score s' →
      compute_overall_score
        (enrich_issues_with_scores (pre ++ { x with severity := some s' } :: post) hmap)
        rs trend ≤
      compute_overall_score
        (enrich_issues_with_scores (pre ++ x :: post) hmap) rs trend) ∧
    (compute_overall_score
        (enrich_issues_with_scores (pre ++ x :: post) hmap) rs trend ≤
      compute_overall_score
        (enrich_issues_with_scores
          (pre ++ { x with occurrences := some (x.occurrences.getD 1 + 1) } :: post) hmap)
        rs trend) := by
  constructor
  · intro hbase
    apply compute_overall_score_anti _ _ rs trend htrend
    · rw [enrich_length, enrich_length]
      simp
    · rw [enrich_scores, enrich_scores]
      rw [sum_map_insert (fun i =>
            compute_issue_score i (assocGetD hmap (i.file.getD "") 1) 1) pre post,
          sum_map_insert (fun i =>
            compute_issue_score i (assocGetD hmap (i.file.getD "") 1) 1) pre post]
      have hmid :
          compute_issue_score x (assocGetD hmap (x.file.getD "") 1) 1 ≤
          compute_issue_score { x with severity := some s' }
            (assocGetD hmap (x.file.getD "") 1) 1 :=
        compute_issue_score_mono_base x _ _ hbase rfl
      exact add_le_add (add_le_add le_rfl hmid) le_rfl
  · apply compute_overall_score_anti _ _ rs trend htrend
    · rw [enrich_length, enrich_length]
      simp
    · rw [enrich_scores, enrich_scores]
      rw [sum_map_insert (fun i =>
            compute_issue_score i (assocGetD hmap (i.file.getD "") 1) 1) pre post,
          sum_map_insert (fun i =>
            compute_issue_score i (assocGetD hmap (i.file.getD "") 1) 1) pre post]
      have hmid :
          compute_issue_score { x with occurrences := some (x.occurrences.getD 1 + 1) }
            (assocGetD hmap (x.file.getD "") 1) 1 ≤
          compute_issue_score x (assocGetD hmap (x.file.getD "") 1) 1 :=
        compute_issue_score_anti_occ x _ _ rfl rfl
      exact add_le_add (add_le_add le_rfl hmid) le_rfl

/-- C3 counterexample: with a single high-severity issue in a 50-file repo,
raising its occurrence count from 1 to 2 strictly RAISES the overall score
(from 60 to 65), contradicting "never yields a strictly larger overall
score". -/
theorem C3_occurrences_cex :
    compute_overall_score
      (enrich_issues_with_scores
        [{ severity := some "high", file := some "a.py", occurrences := some 2 }]
        [("a.py", 1)]) 50 1 >
    compute_overall_score
      (enrich_issues_with_scores
        [{ severity := some "high", file := some "a.py" }]
        [("a.py", 1)]) 50 1 := by
  with_unfolding_all decide

/-- Witness for C3 (amended) at a concrete input. -/
theorem C3_monotonicity_witness :
    (0 : ℚ) ≤ 1 ∧
    severity_to_base_score
      (({ severity := some "high", file := some "a.py" } : Issue).severity.getD "medium") ≤
      severity_to_base_score "critical" ∧
    (compute_overall_score
        (enrich_issues_with_scores
          ([] ++ { ({ severity := some "high", file := some "a.py" } : Issue) with
                    severity := some "critical" } :: []) [("a.py", 1)]) 50 1 ≤
      compute_overall_score
        (enrich_issues_with_scores
          ([] ++ ({ severity := some "high", file := some "a.py" } : Issue) :: [])
          [("a.py", 1)]) 50 1) ∧
    (compute_overall_score
        (enrich_issues_with_scores
          ([] ++ ({ severity := some "high", file := some "a.py" } : Issue) :: [])
          [("a.py", 1)]) 50 1 ≤
      compute_overall_score
        (enrich_issues_with_scores
          ([] ++ { ({ severity := some "high", file := some "a.py" } : Issue) with
                    occurrences := some
                      (({ severity := some "high", file := some "a.py" } : Issue).occurrences.getD 1 + 1) } :: [])
          [("a.py", 1)]) 50 1) :=
  ⟨by norm_num, by decide,
   (C3_monotonicity [] [] { severity := some "high", file := some "a.py" } "critical"
      [("a.py", 1)] 50 1 (by norm_num)).1 (by decide),
   (C3_monotonicity [] [] { severity := some "high", file := some "a.py" } "critical"
      [("a.py", 1)] 50 1 (by norm_num)).2⟩

/-! ## `src/core/analyzers/python_analyzer.py`

The Python `ast` library is external to the repository, so a parsed file is
modelled as input data: the `FunctionDef`/`AsyncFunctionDef`, `ClassDef` and
`Call` nodes in `ast.walk` order, each carrying what the analyzer reads off
it (`name`, `lineno`, argument count, decorator names,
`ast.get_source_segment` results).  Everything from there on is embedded from
the source.  Exception text interpolated into the parse-failure message is
elided (no claim mentions message text). -/

/-- `_hash_issue` (python analyzer): first 12 hex chars of the SHA-256 of
`"file:lineno:category"`. -/
def py_hash_issue (file : String) (lineno : Int) (category : String) : String :=
  (sha256hex (file ++ ":" ++ toString lineno ++ ":" ++ category)).take 12

/-- Python substring containment (`pat in s`). -/
def strContains (s pat : String) : Bool := 0 < pyCount s pat

structure TodoItem where
  lineno : Int
  text : String
deriving Repr, DecidableEq

/-- `_find_todos`: lines containing TODO or FIXME, 1-based line numbers,
stripped text. -/
def py_find_todos (source : String) : List TodoItem :=
  ((pysplitlines source).enum.filter
      (fun p => strContains p.2 "TODO" || strContains p.2 "FIXME")).map
    (fun p => ⟨(p.1 : Int) + 1, pystrip p.2⟩)

/-- `_approx_complexity`: substring counts of the decision keywords plus 1
(the radon-less fallback path; `cc_visit` is an optional external library). -/
def py_approx_complexity (source : String) : Nat :=
  pyCount source "if" + pyCount source "for" + pyCount source "while" +
    pyCount source "and" + pyCount source "or" + 1

/-- The duplication normalization inside `analyze_python_repo`:
`"".join(line.strip() for line in func_source.splitlines() if not
line.strip().startswith("#"))`. -/
def pyNormLines (lines : List String) : String :=
  String.join ((lines.filter (fun l => !pyStartsWith (pystrip l) "#")).map pystrip)

def pyNormalize (src : String) : String := pyNormLines (pysplitlines src)

/-- The duplication hash of a function source:
`hashlib.sha256(norm_src.encode("utf-8")).hexdigest()`. -/
def pyFuncHash (src : String) : String := sha256hex (pyNormalize src)

/-- A `Call` node as the security visitor reads it: `func` is `node.func.id`
(plain name) or `node.func.attr` (attribute), else the empty string;
`segment` is `ast.get_source_segment(source, node)`. -/
structure PyCallNode where
  func : String
  lineno : Int
  segment : Option String
deriving Repr, DecidableEq

/-- A `FunctionDef`/`AsyncFunctionDef` node as the analyzer reads it. -/
structure PyFuncNode where
  name : String
  lineno : Int
  argCount : Nat
  decorators : List String
  segment : Option String
deriving Repr, DecidableEq

structure PyClassNode where
  name : String
  lineno : Int
deriving Repr, DecidableEq

/-- A successfully parsed file: nodes in `ast.walk` order. -/
structure PyTree where
  functions : List PyFuncNode
  classes : List PyClassNode
  calls : List PyCallNode
deriving Repr, DecidableEq

/-- One source file handed to `analyze_python_repo`: repo-relative path, raw
text, and the parse result (`none` models `ast.parse` raising). -/
structure PyFileInput where
  relPath : String
  source : String
  parsed : Option PyTree
deriving Repr, DecidableEq

/-- `_detect_security_issues`: the issue the visitor emits for one `Call`
node, if any. -/
def security_issue_of_call (rel_path : String) (node : PyCallNode) : Option Issue :=
  let snippet := match node.segment with
    | some s => if s = "" then node.func else s
    | none => node.func
  if node.func = "eval" ∨ node.func = "exec" then
    some { id := "PY-SEC-" ++ py_hash_issue rel_path node.lineno node.func,
           category := "security", severity := some "high",
           file := some rel_path, lineno := some node.lineno,
           message := "Use of dangerous function '" ++ node.func ++ "'.",
           evidence := some snippet,
           suggestedFix := some "Avoid using eval/exec; consider safer alternatives." }
  else if node.func = "literal_eval" then
    some { id := "PY-SEC-" ++ py_hash_issue rel_path node.lineno node.func,
           category := "security", severity := some "medium",
           file := some rel_path, lineno := some node.lineno,
           message := "literal_eval may be unsafe on untrusted input.",
           evidence := some snippet,
           suggestedFix := some "Validate inputs before using literal_eval." }
  else if node.func = "system" then
    some { id := "PY-SEC-" ++ py_hash_issue rel_path node.lineno node.func,
           category := "security", severity := some "high",
           file := some rel_path, lineno := some node.lineno,
           message := "os.system call detected.",
           evidence := some snippet,
           suggestedFix := some "Use subprocess with safe arguments instead of os.system." }
  else none

/-- `_detect_security_issues`: one issue per matching `Call` node, in
visitor order. -/
def detect_security_issues (rel_path : String) (calls : List PyCallNode) : List Issue :=
  calls.filterMap (security_issue_of_call rel_path)

structure FuncInfo where
  name : String
  lineno : Int
  argCount : Nat
  decorators : List String
  cc : Nat
deriving Repr, DecidableEq

structure ClassInfo where
  name : String
  lineno : Int
deriving Repr, DecidableEq

/-- A per-file report (`file_report` dict).  The JS analyzer's reports have
no `classes` key; that is modelled as the empty list. -/
structure FileReport where
  functions : List FuncInfo := []
  classes : List ClassInfo := []
  todos : List TodoItem := []
  security_warnings : List Issue := []
  duplication_hashes : List String := []
deriving Repr, DecidableEq

/-- Python dict assignment `m[k] = v` on an insertion-ordered association
list. -/
def dictSet {β : Type} : List (String × β) → String → β → List (String × β)
  | [], k, v => [(k, v)]
  | (k0, v0) :: t, k, v =>
      if k0 = k then (k0, v) :: t else (k0, v0) :: dictSet t k v

/-- The `functions` entry recorded for one `FunctionDef` node (radon-less
complexity path). -/
def func_info_of_node (_rel_path : String) (fn : PyFuncNode) : FuncInfo :=
  ⟨fn.name, fn.lineno, fn.argCount, fn.decorators,
   py_approx_complexity (fn.segment.getD "")⟩

/-- The high-complexity issue for one `FunctionDef` node, when `cc_val > 10`. -/
def complexity_issue_of_func (rel_path : String) (fn : PyFuncNode) : Option Issue :=
  let func_source := fn.segment.getD ""
  let cc_val := py_approx_complexity func_source
  if cc_val > 10 then
    some { id := "PY-CPLX-" ++ py_hash_issue rel_path fn.lineno "complexity",
           category := "complexity", severity := some "high",
           file := some rel_path, lineno := some fn.lineno,
           message := "Function '" ++ fn.name ++ "' has high complexity (cc=" ++
             toString cc_val ++ ").",
           evidence := some (func_source.take 200),
           suggestedFix := some "Refactor function to reduce complexity." }
  else none

/-- The `documentation` issue for one TODO/FIXME line. -/
def todo_issue_of (rel_path : String) (t : TodoItem) : Issue :=
  { id := "PY-TODO-" ++ py_hash_issue rel_path t.lineno "todo",
    category := "documentation", severity := some "low",
    file := some rel_path, lineno := some t.lineno,
    message := "TODO/FIXME comment found.",
    evidence := some t.text,
    suggestedFix := some "Resolve or remove TODO/FIXME." }

/-- The per-file body of `analyze_python_repo`'s loop: the file report and
the issues the file contributes, in source order (parse failure short-circuits
with a `parsing` issue; otherwise complexity issues in walk order, then TODO
issues, then security issues). -/
def analyze_python_file (f : PyFileInput) : FileReport × List Issue :=
  match f.parsed with
  | none =>
      ({}, [{ id := "PY-PARSE-" ++ py_hash_issue f.relPath 0 "parsing",
              category := "parsing", severity := some "medium",
              file := some f.relPath, lineno := none,
              message := "Failed to parse Python file.",
              evidence := some (f.source.take 200),
              suggestedFix := some "Ensure valid Python syntax." }])
  | some tree =>
      let todos := py_find_todos f.source
      let secIssues := detect_security_issues f.relPath tree.calls
      ({ functions := tree.functions.map (func_info_of_node f.relPath),
         classes := tree.classes.map (fun c => ⟨c.name, c.lineno⟩),
         todos := todos,
         security_warnings := secIssues,
         duplication_hashes :=
           tree.functions.map (fun fn => sha256hex (pyNormalize (fn.segment.getD ""))) },
       tree.functions.filterMap (complexity_issue_of_func f.relPath) ++
         todos.map (todo_issue_of f.relPath) ++ secIssues)

/-- The testing-gap phase of `analyze_python_repo`: one `testing`/`missing`
issue per package directory when no `tests/` directory exists.  `packages`
are the package paths in `iterdir` order; `has_tests` models
`(repo_path / "tests").exists()`. -/
def py_testing_issues (packages : List String) (has_tests : Bool) : List Issue :=
  if !has_tests && !packages.isEmpty then
    packages.map (fun pkg =>
      { id := "PY-TEST-" ++ py_hash_issue pkg 0 "testing",
        category := "testing", severity := some "missing",
        file := some pkg, lineno := none,
        message := "Package has no tests directory.",
        evidence := some "Missing tests/ directory.",
        suggestedFix := some "Add a tests/ folder with unit tests." })
  else []

/-- The per-language analyzer result (`language`, `files`, `issues`; the
textual summary is presentation-only and not modelled). -/
structure AnalyzerResult where
  language : String
  files : List (String × FileReport)
  issues : List Issue
deriving Repr, DecidableEq

/-- `analyze_python_repo` over the walked file list: per-file reports keyed
by relative path (dict insertion order), all per-file issues in walk order,
then the testing-gap issues.  Note: the collected `duplication_hashes` are
stored in the reports but no cross-file duplication phase exists in this
analyzer. -/
def analyze_python_repo (files : List PyFileInput) (packages : List String)
    (has_tests : Bool) : AnalyzerResult :=
  { language := "python",
    files := files.foldl (fun m f => dictSet m f.relPath (analyze_python_file f).1) [],
    issues := files.flatMap (fun f => (analyze_python_file f).2) ++
      py_testing_issues packages has_tests }

/-! ### Category lemmas for the Python analyzer (C4) -/

theorem eq_of_ite_some {α : Type} {c : Prop} [Decidable c] {a i : α}
    (h : (if c then some a else none) = some i) : i = a := by
  by_cases hc : c
  · rw [if_pos hc] at h
    cases h
    rfl
  · rw [if_neg hc] at h
    cases h

theorem eq_of_ite3_some {α : Type} {c1 c2 c3 : Prop}
    [Decidable c1] [Decidable c2] [Decidable c3] {a1 a2 a3 i : α}
    (h : (if c1 then some a1 else if c2 then some a2 else
          if c3 then some a3 else none) = some i) :
    i = a1 ∨ i = a2 ∨ i = a3 := by
  by_cases h1 : c1
  · rw [if_pos h1] at h
    cases h
    exact Or.inl rfl
  · rw [if_neg h1] at h
    by_cases h2 : c2
    · rw [if_pos h2] at h
      cases h
      exact Or.inr (Or.inl rfl)
    · rw [if_neg h2] at h
      by_cases h3 : c3
      · rw [if_pos h3] at h
        cases h
        exact Or.inr (Or.inr rfl)
      · rw [if_neg h3] at h
        cases h

theorem complexity_issue_category (rel : String) (fn : PyFuncNode) (i : Issue)
    (h : complexity_issue_of_func rel fn = some i) : i.category = "complexity" := by
  simp only [complexity_issue_of_func] at h
  rw [eq_of_ite_some h]

theorem security_issue_category (rel : String) (c : PyCallNode) (i : Issue)
    (h : security_issue_of_call rel c = some i) : i.category = "security" := by
  simp only [security_issue_of_call] at h
  rcases eq_of_ite3_some h with h1 | h1 | h1 <;> rw [h1]

theorem py_testing_issue_category (packages : List String) (ht : Bool) (i : Issue)
    (hi : i ∈ py_testing_issues packages ht) : i.category = "testing" := by
  unfold py_testing_issues at hi
  split at hi
  · obtain ⟨pkg, _, hpkg⟩ := List.mem_map.mp hi
    rw [← hpkg]
  · cases hi

theorem analyze_python_file_categories (f : PyFileInput) (i : Issue)
    (hi : i ∈ (analyze_python_file f).2) :
    i.category = "parsing" ∨ i.category = "complexity" ∨
      i.category = "documentation" ∨ i.category = "security" := by
  unfold analyze_python_file at hi
  cases hp : f.parsed with
  | none =>
      rw [hp] at hi
      simp only [List.mem_singleton] at hi
      left; rw [hi]
  | some tree =>
      rw [hp] at hi
      simp only [List.mem_append] at hi
      rcases hi with (hi | hi) | hi
      · obtain ⟨fn, _, hfn⟩ := List.mem_filterMap.mp hi
        exact Or.inr (Or.inl (complexity_issue_category _ fn i hfn))
      · obtain ⟨t, _, ht⟩ := List.mem_map.mp hi
        refine Or.inr (Or.inr (Or.inl ?_))
        rw [← ht]; rfl
      · obtain ⟨c, _, hc⟩ := List.mem_filterMap.mp hi
        exact Or.inr (Or.inr (Or.inr (security_issue_category _ c i hc)))

def dupSourceC4 : String := "def f():\n    return 1\n"

def dupTreeC4 : PyTree :=
  ⟨[⟨"f", 1, 0, [], some "def f():\n    return 1"⟩], [], []⟩

/-- The C4 failing input: two Python files, each defining one function with
identical (normalized) bodies. -/
def dupFilesC4 : List PyFileInput :=
  [⟨"a.py", dupSourceC4, some dupTreeC4⟩, ⟨"b.py", dupSourceC4, some dupTreeC4⟩]

/-- C4: the Python analyzer collects per-function `duplication_hashes` but has
NO cross-file duplication phase: for every input it emits zero issues of
category `duplication`.  At the failing input (two files with identical
function bodies, equal non-empty hash lists collected) its issue list is
empty, against the claimed single `duplication` issue referencing both
files.  (The JS analyzer does implement the cross-file phase; see the C4
record.) -/
theorem C4_python_duplication_missing :
    (∀ (files : List PyFileInput) (packages : List String) (ht : Bool),
      (analyze_python_repo files packages ht).issues.filter
        (fun i => i.category = "duplication") = []) ∧
    (assocGetD (analyze_python_repo dupFilesC4 [] true).files "a.py" {}).duplication_hashes =
      (assocGetD (analyze_python_repo dupFilesC4 [] true).files "b.py" {}).duplication_hashes ∧
    (assocGetD (analyze_python_repo dupFilesC4 [] true).files "a.py" {}).duplication_hashes ≠ [] ∧
    (analyze_python_repo dupFilesC4 [] true).issues = [] := by
  refine ⟨fun files packages ht => ?_, by with_unfolding_all decide,
    by with_unfolding_all decide, by with_unfolding_all decide⟩
  rw [List.filter_eq_nil_iff]
  intro i hi
  simp only [analyze_python_repo, List.mem_append, List.mem_flatMap] at hi
  simp only [decide_eq_true_eq]
  rcases hi with ⟨f, _, hf⟩ | hi
  · rcases analyze_python_file_categories f i hf with h | h | h | h <;> simp [h]
  · have h := py_testing_issue_category packages ht i hi
    simp [h]

/-! ### C5: duplication-hash normalization -/

theorem pyNormLines_eq_map (lines : List String) :
    pyNormLines lines =
      String.join ((lines.map pystrip).filter (fun t => !pyStartsWith t "#")) := by
  unfold pyNormLines
  rw [List.filter_map]
  rfl

/-- C5 (amended): the Python normalization is invariant under inserting
whole-line comments (stripped form starting with "#") and under changing each
line's leading/trailing whitespace, so two bodies differing only in those ways
receive identical duplication hashes; and the concrete pair of bodies
differing by one renamed identifier (`foo` vs `bar`) hash differently.
(Inline trailing comments and internal whitespace are NOT normalized — see
the counterexample.) -/
theorem C5_normalization_invariance (lines₁ lines₂ : List String) (extra : String)
    (k : Nat) (hcomment : pyStartsWith (pystrip extra) "#" = true)
    (hstrip : lines₂.map pystrip = lines₁.map pystrip) :
    sha256hex (pyNormLines (lines₂.take k ++ extra :: lines₂.drop k)) =
      sha256hex (pyNormLines lines₁) ∧
    pyFuncHash "def f():\n    return foo" ≠ pyFuncHash "def f():\n    return bar" := by
  constructor
  · have hfil : (lines₂.take k ++ extra :: lines₂.drop k).filter
          (fun l => !pyStartsWith (pystrip l) "#") =
        lines₂.filter (fun l => !pyStartsWith (pystrip l) "#") := by
      rw [List.filter_append, List.filter_cons_of_neg (by simp [hcomment]),
        ← List.filter_append, List.take_append_drop]
    have h1 : pyNormLines (lines₂.take k ++ extra :: lines₂.drop k) =
        pyNormLines lines₂ := by
      unfold pyNormLines
      rw [hfil]
    have h2 : pyNormLines lines₂ = pyNormLines lines₁ := by
      rw [pyNormLines_eq_map, pyNormLines_eq_map, hstrip]
    rw [h1, h2]
  · with_unfolding_all decide

/-- C5 counterexample: two bodies that differ only by an inline (trailing)
comment hash differently — the normalization drops only lines whose stripped
form STARTS with "#", and does not touch a comment after code on the same
line. -/
theorem C5_inline_comment_cex :
    pyFuncHash "def f():\n    return 1  # note" ≠
      pyFuncHash "def f():\n    return 1" := by
  with_unfolding_all decide

/-- Witness for C5 (amended) at a concrete input. -/
theorem C5_normalization_invariance_witness :
    pyStartsWith (pystrip "  # c") "#" = true ∧
    ["  def f():", "      return 1"].map pystrip =
      ["def f():", "    return 1"].map pystrip ∧
    (sha256hex (pyNormLines (["  def f():", "      return 1"].take 1 ++
        "  # c" :: ["  def f():", "      return 1"].drop 1)) =
      sha256hex (pyNormLines ["def f():", "    return 1"]) ∧
     pyFuncHash "def f():\n    return foo" ≠ pyFuncHash "def f():\n    return bar") :=
  ⟨by with_unfolding_all decide, by with_unfolding_all decide,
   C5_normalization_invariance ["def f():", "    return 1"]
     ["  def f():", "      return 1"] "  # c" 1
     (by with_unfolding_all decide) (by with_unfolding_all decide)⟩

/-! ### C6: issue-id determinism -/

theorem filterMap_guard {α β : Type} (p : α → Bool) (g : α → β) (l : List α) :
    l.filterMap (fun a => if p a then some (g a) else none) = (l.filter p).map g := by
  induction l with
  | nil => rfl
  | cons a t ih =>
      by_cases h : p a <;>
        simp [List.filterMap_cons, List.filter_cons, h, ih]

/-- The deny-list test of `_detect_security_issues` (eval, exec, literal_eval,
os.system). -/
def is_security_target (c : PyCallNode) : Bool :=
  c.func = "eval" || c.func = "exec" || c.func = "literal_eval" || c.func = "system"

theorem security_issue_id_map (rel : String) (c : PyCallNode) :
    (security_issue_of_call rel c).map Issue.id =
      if is_security_target c then
        some ("PY-SEC-" ++ py_hash_issue rel c.lineno c.func) else none := by
  by_cases e1 : c.func = "eval"
  all_goals by_cases e2 : c.func = "exec"
  all_goals by_cases e3 : c.func = "literal_eval"
  all_goals by_cases e4 : c.func = "system"
  all_goals simp [security_issue_of_call, is_security_target, e1, e2, e3, e4]

theorem security_issue_category_map (rel : String) (c : PyCallNode) :
    (security_issue_of_call rel c).map Issue.category =
      if is_security_target c then some "security" else none := by
  by_cases e1 : c.func = "eval"
  all_goals by_cases e2 : c.func = "exec"
  all_goals by_cases e3 : c.func = "literal_eval"
  all_goals by_cases e4 : c.func = "system"
  all_goals simp [security_issue_of_call, is_security_target, e1, e2, e3, e4]

/-- C6 (amended): security-issue ids are a deterministic function of the
file, the line and the MATCHED FUNCTION NAME (not the issue category):
the detector's id list is exactly `PY-SEC-<sha256(file:line:funcname)[:12]>`
over the matching calls, and all these issues carry category "security".
Two runs on the same input therefore assign identical ids, but two issues
agreeing on (file, line, category) may still differ in id when the matched
names differ. -/
theorem C6_issue_id_determinism (rel_path : String) (calls : List PyCallNode) :
    (detect_security_issues rel_path calls).map Issue.id =
      (calls.filter is_security_target).map
        (fun c => "PY-SEC-" ++ py_hash_issue rel_path c.lineno c.func) ∧
    (detect_security_issues rel_path calls).map Issue.category =
      (calls.filter is_security_target).map (fun _ => "security") := by
  constructor
  · unfold detect_security_issues
    rw [List.map_filterMap]
    rw [show (fun c => (security_issue_of_call rel_path c).map Issue.id) =
        (fun c => if is_security_target c then
          some ("PY-SEC-" ++ py_hash_issue rel_path c.lineno c.func) else none) from
      funext (security_issue_id_map rel_path)]
    exact filterMap_guard _ _ _
  · unfold detect_security_issues
    rw [List.map_filterMap]
    rw [show (fun c => (security_issue_of_call rel_path c).map Issue.category) =
        (fun c => if is_security_target c then some "security" else none) from
      funext (security_issue_category_map rel_path)]
    exact filterMap_guard _ (fun _ => "security") _

/-- C6 counterexample: `eval(a); exec(b)` on one line of one file produces two
issues that agree on file, line and category ("security") but carry DIFFERENT
ids, because `_detect_security_issues` hashes the matched function name, not
the category. -/
theorem C6_same_triple_distinct_ids_cex :
    (detect_security_issues "a.py" [⟨"eval", 1, none⟩, ⟨"exec", 1, none⟩]).length = 2 ∧
    ((detect_security_issues "a.py" [⟨"eval", 1, none⟩, ⟨"exec", 1, none⟩]).getD 0 {}).file =
      ((detect_security_issues "a.py" [⟨"eval", 1, none⟩, ⟨"exec", 1, none⟩]).getD 1 {}).file ∧
    ((detect_security_issues "a.py" [⟨"eval", 1, none⟩, ⟨"exec", 1, none⟩]).getD 0 {}).lineno =
      ((detect_security_issues "a.py" [⟨"eval", 1, none⟩, ⟨"exec", 1, none⟩]).getD 1 {}).lineno ∧
    ((detect_security_issues "a.py" [⟨"eval", 1, none⟩, ⟨"exec", 1, none⟩]).getD 0 {}).category =
      "security" ∧
    ((detect_security_issues "a.py" [⟨"eval", 1, none⟩, ⟨"exec", 1, none⟩]).getD 1 {}).category =
      "security" ∧
    ((detect_security_issues "a.py" [⟨"eval", 1, none⟩, ⟨"exec", 1, none⟩]).getD 0 {}).id ≠
      ((detect_security_issues "a.py" [⟨"eval", 1, none⟩, ⟨"exec", 1, none⟩]).getD 1 {}).id := by
  with_unfolding_all decide

/-! ## `src/core/analyzers/js_analyzer.py`

Tree-sitter is an optional external dependency that is never loadable in the
modelled configuration (`TS_LANG_SO` unset), so the analyzer always takes the
regex fallback path, which is embedded here: the four `SUSPICIOUS_PATTERNS`
regexes as explicit left-to-right scanners (`re.finditer` semantics:
non-overlapping, resuming at each match end), the security-issue assembly,
the duplication normalizer and the cross-file duplication phase. -/

/-- `_hash_issue` (js analyzer): first 8 hex chars; a `None` line number
renders as "None" inside the f-string. -/
def pyOptIntStr : Option Int → String
  | none => "None"
  | some n => toString n

def js_hash_issue (file : String) (lineno : Option Int) (category : String) : String :=
  (sha256hex (file ++ ":" ++ pyOptIntStr lineno ++ ":" ++ category)).take 8

/-- Remove `//.*?$` (MULTILINE): from each `//` to the end of its line,
keeping the newline. -/
def stripLineCommentsAux : Nat → List Char → List Char
  | 0, _ => []
  | _, [] => []
  | fuel + 1, c :: cs =>
      match c, cs with
      | '/', '/' :: rest =>
          stripLineCommentsAux fuel (rest.dropWhile (fun ch => ch ≠ '\n'))
      | _, _ => c :: stripLineCommentsAux fuel cs

/-- Position after the closing `*/`, if one exists. -/
def findBlockEnd : Nat → List Char → Option (List Char)
  | 0, _ => none
  | _, [] => none
  | fuel + 1, c :: cs =>
      match c, cs with
      | '*', '/' :: rest => some rest
      | _, _ => findBlockEnd fuel cs

/-- Remove `/\*.*?\*/` (DOTALL, non-greedy): each `/*` up to the NEAREST
following `*/`; an unterminated opener matches nothing and stays. -/
def stripBlockCommentsAux : Nat → List Char → List Char
  | 0, _ => []
  | _, [] => []
  | fuel + 1, c :: cs =>
      match c, cs with
      | '/', '*' :: rest =>
          match findBlockEnd rest.length rest with
          | some after => stripBlockCommentsAux fuel after
          | none => c :: stripBlockCommentsAux fuel cs
      | _, _ => c :: stripBlockCommentsAux fuel cs

/-- Collapse `\s+` runs into single spaces (the flag records whether the
previous character was part of a whitespace run). -/
def collapseWsGo : Bool → List Char → List Char
  | _, [] => []
  | prevSpace, c :: cs =>
      if isPySpace c then
        if prevSpace then collapseWsGo true cs else ' ' :: collapseWsGo true cs
      else c :: collapseWsGo false cs

/-- `_normalize_code_for_hash`: strip line comments, strip block comments,
collapse whitespace, strip the ends. -/
def js_normalize_code_for_hash (code : String) : String :=
  pystrip (String.mk (collapseWsGo false
    (stripBlockCommentsAux
      (stripLineCommentsAux code.data.length code.data).length
      (stripLineCommentsAux code.data.length code.data))))

/-- Lowercase one char (the `re.IGNORECASE` comparison). -/
def lchar (c : Char) : Char :=
  if 'A' ≤ c && c ≤ 'Z' then Char.ofNat (c.toNat + 32) else c

/-- Python `\w` (ASCII). -/
def isWordChar (c : Char) : Bool :=
  ('a' ≤ lchar c && lchar c ≤ 'z') || ('0' ≤ c && c ≤ '9') || c = '_'

/-- Case-insensitive literal prefix match (`pat` is already lowercase). -/
def ciPrefix : List Char → List Char → Bool
  | [], _ => true
  | _ :: _, [] => false
  | p :: ps, c :: cs => p = lchar c && ciPrefix ps cs

def skipWsLen (s : List Char) : Nat := (s.takeWhile isPySpace).length

/-- `\beval\s*\(` at the head of `s` (`prev` is the char before `s` in the
whole text, for the word boundary). -/
def matchEvalAt (prev : Option Char) (s : List Char) : Option Nat :=
  if (match prev with | some p => !isWordChar p | none => true) &&
      ciPrefix ['e', 'v', 'a', 'l'] s then
    let rest := s.drop 4
    let w := skipWsLen rest
    if (rest.drop w).head? = some '(' then some (4 + w + 1) else none
  else none

/-- `new\s+Function\s*\(` at the head of `s` (no word boundary in the
source pattern). -/
def matchNewFunctionAt (_prev : Option Char) (s : List Char) : Option Nat :=
  if ciPrefix ['n', 'e', 'w'] s then
    let r1 := s.drop 3
    let w1 := skipWsLen r1
    if w1 = 0 then none
    else
      let r2 := r1.drop w1
      if ciPrefix ['f', 'u', 'n', 'c', 't', 'i', 'o', 'n'] r2 then
        let r3 := r2.drop 8
        let w2 := skipWsLen r3
        if (r3.drop w2).head? = some '(' then some (3 + w1 + 8 + w2 + 1) else none
      else none
  else none

/-- `\.innerHTML\b` at the head of `s`. -/
def matchInnerhtmlAt (_prev : Option Char) (s : List Char) : Option Nat :=
  match s with
  | '.' :: rest =>
      if ciPrefix ['i', 'n', 'n', 'e', 'r', 'h', 't', 'm', 'l'] rest then
        match (rest.drop 9).head? with
        | some c => if isWordChar c then none else some 10
        | none => some 10
      else none
  | _ => none

/-- `document\.write\s*\(` at the head of `s`. -/
def matchDocumentWriteAt (_prev : Option Char) (s : List Char) : Option Nat :=
  if ciPrefix ['d', 'o', 'c', 'u', 'm', 'e', 'n', 't', '.', 'w', 'r', 'i', 't', 'e'] s then
    let r := s.drop 14
    let w := skipWsLen r
    if (r.drop w).head? = some '(' then some (14 + w + 1) else none
  else none

/-- `re.finditer`: scan left to right, emit (start, end) spans, resume after
each match.  `prev` tracks the character before the current position. -/
def scanMatches (matcher : Option Char → List Char → Option Nat) :
    Nat → Option Char → Nat → List Char → List (Nat × Nat)
  | 0, _, _, _ => []
  | _, _, _, [] => []
  | fuel + 1, prev, pos, c :: cs =>
      match matcher prev (c :: cs) with
      | some len =>
          (pos, pos + len) ::
            scanMatches matcher fuel (some ((c :: cs).getD (len - 1) c)) (pos + len)
              ((c :: cs).drop len)
      | none => scanMatches matcher fuel (some c) (pos + 1) cs

structure JsWarning where
  type : String
  lineno : Int
  snippet : String
deriving Repr, DecidableEq

/-- The warnings one pattern contributes in `_detect_suspicious_regex`:
`lineno` counts newlines before the match start; `snippet` is the first line
of `source[m.start() : m.end()+80]`, capped at 200 chars. -/
def js_warnings_for (source : String) (name : String)
    (matcher : Option Char → List Char → Option Nat) : List JsWarning :=
  (scanMatches matcher source.data.length none 0 source.data).map (fun m =>
    { type := name,
      lineno := ((source.data.take m.1).count '\n' : Int) + 1,
      snippet := ((pysplitlines (String.mk
        ((source.data.drop m.1).take (m.2 + 80 - m.1)))).getD 0 "").take 200 })

/-- `_detect_suspicious_regex`: the four patterns in `SUSPICIOUS_PATTERNS`
dict order. -/
def detect_suspicious_regex (source : String) : List JsWarning :=
  js_warnings_for source "eval" matchEvalAt ++
    js_warnings_for source "new_function" matchNewFunctionAt ++
    js_warnings_for source "innerHTML" matchInnerhtmlAt ++
    js_warnings_for source "document_write" matchDocumentWriteAt

/-- The security issue `analyze_js_repo` builds from one warning: severity
"high" only for the types eval, new_function and dom-xss (the regex path
never produces dom-xss — it labels markup sinks innerHTML/document_write,
which therefore get "medium"). -/
def js_security_issue_of (rel_path : String) (w : JsWarning) : Issue :=
  { id := "JS-SEC-" ++ js_hash_issue rel_path (some w.lineno) w.type,
    category := "security",
    severity := some (if w.type = "eval" ∨ w.type = "new_function" ∨ w.type = "dom-xss"
      then "high" else "medium"),
    file := some rel_path, lineno := some w.lineno,
    message := "Suspicious construct '" ++ w.type ++ "' detected.",
    evidence := some w.snippet,
    suggestedFix :=
      some "Avoid dynamic code execution and unsafe DOM sinks; sanitize inputs and use safe APIs." }

def js_security_issues (rel_path : String) (ws : List JsWarning) : List Issue :=
  ws.map (js_security_issue_of rel_path)

/-- `dict.setdefault(h, []).append(fp)` on an insertion-ordered map. -/
def dictAppend : List (String × List String) → String → String →
    List (String × List String)
  | [], h, fp => [(h, [fp])]
  | (k, v) :: t, h, fp =>
      if k = h then (k, v ++ [fp]) :: t else (k, v) :: dictAppend t h fp

/-- The cross-file map `all_hash_to_locations` built after the scan. -/
def js_hash_locations (files_data : List (String × FileReport)) :
    List (String × List String) :=
  files_data.foldl
    (fun m p => p.2.duplication_hashes.foldl (fun m2 h => dictAppend m2 h p.1) m) []

/-- `json.dumps` of a list of strings (no escaping needed for the modelled
paths). -/
def jsonDumpsList (l : List String) : String :=
  "[" ++ String.intercalate ", " (l.map (fun s => "\"" ++ s ++ "\"")) ++ "]"

/-- The JS cross-file duplication phase: one issue per hash observed in more
than one location (same or different files), evidencing the full location
list. -/
def js_duplication_issues (files_data : List (String × FileReport)) : List Issue :=
  (js_hash_locations files_data).filterMap (fun p =>
    if p.2.length > 1 then
      some { id := "JS-DUP-" ++ js_hash_issue (p.2.getD 0 "") (some 0) "duplication",
             category := "duplication", severity := some "medium",
             file := some (p.2.getD 0 ""), lineno := none,
             message := "Code duplication detected across " ++
               toString p.2.length ++ " files.",
             evidence := some (jsonDumpsList p.2),
             suggestedFix :=
               some "Refactor duplicated code into shared modules or functions." }
    else none)

/-! ### C7: security detection severities -/

theorem security_issue_catsev_map (rel : String) (c : PyCallNode) :
    (security_issue_of_call rel c).map (fun i => (i.category, i.severity)) =
      if is_security_target c then
        some ("security", some (if c.func = "literal_eval" then "medium" else "high"))
      else none := by
  by_cases e1 : c.func = "eval"
  all_goals by_cases e2 : c.func = "exec"
  all_goals by_cases e3 : c.func = "literal_eval"
  all_goals by_cases e4 : c.func = "system"
  all_goals simp [security_issue_of_call, is_security_target, e1, e2, e3, e4]

/-- C7 (amended): (a) a Python file whose AST contains an `eval` call yields
a `security`/`high` issue, and so does (a2) one containing an `exec` or
`system` (os.system) call, while (a3) a `literal_eval` call yields a
`security`/`medium` issue; (a4) in full, the Python detector's issues carry
category "security" and severity "high" for every deny-listed call except
`literal_eval`, which gets "medium"; (b) a file with no deny-listed call
yields no security issue; (c) a JS warning is reported `high` exactly when
its type is eval, new_function or dom-xss — the regex fallback labels the
markup injection sinks `innerHTML`/`document_write`, which therefore get
severity "medium", not high; (d) concretely, `var x = eval(s);` yields one
security/high issue and `var x = 1;` yields none. -/
theorem C7_security_severities :
    (∀ (rel : String) (calls : List PyCallNode) (c : PyCallNode),
      c ∈ calls → c.func = "eval" →
      ∃ i, i ∈ detect_security_issues rel calls ∧
        i.category = "security" ∧ i.severity = some "high") ∧
    (∀ (rel : String) (calls : List PyCallNode) (c : PyCallNode),
      c ∈ calls → (c.func = "exec" ∨ c.func = "system") →
      ∃ i, i ∈ detect_security_issues rel calls ∧
        i.category = "security" ∧ i.severity = some "high") ∧
    (∀ (rel : String) (calls : List PyCallNode) (c : PyCallNode),
      c ∈ calls → c.func = "literal_eval" →
      ∃ i, i ∈ detect_security_issues rel calls ∧
        i.category = "security" ∧ i.severity = some "medium") ∧
    (∀ (rel : String) (calls : List PyCallNode),
      (detect_security_issues rel calls).map (fun i => (i.category, i.severity)) =
        (calls.filter is_security_target).map (fun c =>
          ("security", some (if c.func = "literal_eval" then "medium" else "high")))) ∧
    (∀ (rel : String) (calls : List PyCallNode),
      (∀ c ∈ calls, is_security_target c = false) →
      detect_security_issues rel calls = []) ∧
    (∀ (rel : String) (w : JsWarning),
      (js_security_issue_of rel w).category = "security" ∧
      ((js_security_issue_of rel w).severity = some "high" ↔
        (w.type = "eval" ∨ w.type = "new_function" ∨ w.type = "dom-xss"))) ∧
    ((js_security_issues "a.js" (detect_suspicious_regex "var x = eval(s);")).map
        (fun i => (i.category, i.severity)) = [("security", some "high")] ∧
      detect_suspicious_regex "var x = 1;" = []) := by
  refine ⟨?_, ?_, ?_, ?_, ?_, ?_, ?_, ?_⟩
  · intro rel calls c hc hfunc
    have hsome : ∃ i, security_issue_of_call rel c = some i ∧
        i.category = "security" ∧ i.severity = some "high" := by
      unfold security_issue_of_call
      rw [if_pos (Or.inl hfunc)]
      exact ⟨_, rfl, rfl, rfl⟩
    obtain ⟨i, hi, hcat, hsev⟩ := hsome
    exact ⟨i, List.mem_filterMap.mpr ⟨c, hc, hi⟩, hcat, hsev⟩
  · intro rel calls c hc hfunc
    have hsome : ∃ i, security_issue_of_call rel c = some i ∧
        i.category = "security" ∧ i.severity = some "high" := by
      unfold security_issue_of_call
      rcases hfunc with hfunc | hfunc
      · rw [if_pos (Or.inr hfunc)]
        exact ⟨_, rfl, rfl, rfl⟩
      · rw [hfunc, if_neg (by decide), if_neg (by decide), if_pos rfl]
        exact ⟨_, rfl, rfl, rfl⟩
    obtain ⟨i, hi, hcat, hsev⟩ := hsome
    exact ⟨i, List.mem_filterMap.mpr ⟨c, hc, hi⟩, hcat, hsev⟩
  · intro rel calls c hc hfunc
    have hsome : ∃ i, security_issue_of_call rel c = some i ∧
        i.category = "security" ∧ i.severity = some "medium" := by
      unfold security_issue_of_call
      rw [hfunc, if_neg (by decide), if_pos rfl]
      exact ⟨_, rfl, rfl, rfl⟩
    obtain ⟨i, hi, hcat, hsev⟩ := hsome
    exact ⟨i, List.mem_filterMap.mpr ⟨c, hc, hi⟩, hcat, hsev⟩
  · intro rel_path calls
    unfold detect_security_issues
    rw [List.map_filterMap]
    rw [show (fun c => (security_issue_of_call rel_path c).map
          (fun i => (i.category, i.severity))) =
        (fun c => if is_security_target c then
          some (("security",
            some (if c.func = "literal_eval" then "medium" else "high")) :
              String × Option String)
          else none) from
      funext (security_issue_catsev_map rel_path)]
    exact filterMap_guard _ _ _
  · intro rel calls hnone
    unfold detect_security_issues
    rw [List.filterMap_eq_nil_iff]
    intro c hc
    have h := hnone c hc
    simp only [is_security_target, Bool.or_eq_false_iff, decide_eq_false_iff_not] at h
    unfold security_issue_of_call
    rw [if_neg (by tauto), if_neg h.1.2, if_neg h.2]
  · intro rel w
    constructor
    · rfl
    · by_cases ht : w.type = "eval" ∨ w.type = "new_function" ∨ w.type = "dom-xss"
      · simp [js_security_issue_of, ht]
      · simp [js_security_issue_of, ht]
  · with_unfolding_all decide
  · with_unfolding_all decide

/-- C7 counterexample: `document.write(x)` — a markup-injection sink — is
matched by the regex path with type `document_write`, and the resulting
security issue has severity "medium", not "high" as claimed. -/
theorem C7_markup_injection_medium_cex :
    (js_security_issues "a.js" (detect_suspicious_regex "document.write(x)")).map
        (fun i => (i.category, i.severity)) = [("security", some "medium")] ∧
    some "medium" ≠ some "high" := by
  constructor
  · with_unfolding_all decide
  · decide

/-- Witness for C7 (amended) at concrete inputs. -/
theorem C7_security_severities_witness :
    (∃ i, i ∈ detect_security_issues "a.py" [⟨"eval", 1, none⟩] ∧
      i.category = "security" ∧ i.severity = some "high") ∧
    (∃ i, i ∈ detect_security_issues "b.py" [⟨"system", 3, none⟩] ∧
      i.category = "security" ∧ i.severity = some "high") ∧
    (∃ i, i ∈ detect_security_issues "c.py" [⟨"literal_eval", 2, none⟩] ∧
      i.category = "security" ∧ i.severity = some "medium") ∧
    (detect_security_issues "d.py"
        [⟨"exec", 1, none⟩, ⟨"print", 2, none⟩, ⟨"literal_eval", 3, none⟩]).map
      (fun i => (i.category, i.severity)) =
      ([⟨"exec", 1, none⟩, ⟨"print", 2, none⟩,
          ⟨"literal_eval", 3, none⟩].filter is_security_target).map
        (fun c : PyCallNode =>
          ("security", some (if c.func = "literal_eval" then "medium" else "high"))) ∧
    detect_security_issues "a.py" [⟨"print", 2, none⟩] = [] ∧
    ((js_security_issue_of "a.js" ⟨"innerHTML", 1, "a.innerHTML"⟩).category = "security" ∧
      ((js_security_issue_of "a.js" ⟨"innerHTML", 1, "a.innerHTML"⟩).severity = some "high" ↔
        ("innerHTML" = "eval" ∨ "innerHTML" = "new_function" ∨ "innerHTML" = "dom-xss"))) :=
  ⟨C7_security_severities.1 "a.py" [⟨"eval", 1, none⟩] ⟨"eval", 1, none⟩
     (List.mem_singleton.mpr rfl) rfl,
   C7_security_severities.2.1 "b.py" [⟨"system", 3, none⟩] ⟨"system", 3, none⟩
     (List.mem_singleton.mpr rfl) (Or.inr rfl),
   C7_security_severities.2.2.1 "c.py" [⟨"literal_eval", 2, none⟩] ⟨"literal_eval", 2, none⟩
     (List.mem_singleton.mpr rfl) rfl,
   C7_security_severities.2.2.2.1 "d.py"
     [⟨"exec", 1, none⟩, ⟨"print", 2, none⟩, ⟨"literal_eval", 3, none⟩],
   C7_security_severities.2.2.2.2.1 "a.py" [⟨"print", 2, none⟩]
     (by intro c hc; rw [List.mem_singleton.mp hc]; with_unfolding_all decide),
   C7_security_severities.2.2.2.2.2.1 "a.js" ⟨"innerHTML", 1, "a.innerHTML"⟩⟩

/-! ## `src/core/analyzers/manager.py`

`analyze_repo` is embedded with the filesystem condition (`Path.exists`) as a
boolean input and the two per-language analyzer outputs as parameters (they
are produced by the embedded analyzers above on their own repo models).  The
`meta` timestamp, the printed debug lines, the textual summary and the
optional RAG indexing (`index_for_rag=False` default) are not modelled; no
claim mentions them. -/

structure ManagerResult where
  overall_score : Int
  languages : List String
  issues : List Issue
  files : List (String × FileReport)
deriving Repr, DecidableEq

/-- `dict.update(m, n)` in insertion order. -/
def dictUpdate {β : Type} (m n : List (String × β)) : List (String × β) :=
  n.foldl (fun acc p => dictSet acc p.1 p.2) m

/-- Missing/empty ids get synthetic sequential ones (`ISSUE-<i+1>` at
enumeration index i). -/
def assign_ids_from : Nat → List Issue → List Issue
  | _, [] => []
  | n, i :: t =>
      (if i.id = "" then { i with id := "ISSUE-" ++ toString (n + 1) } else i) ::
        assign_ids_from (n + 1) t

def assign_synthetic_ids (issues : List Issue) : List Issue := assign_ids_from 0 issues

/-- The dict `{issue["id"]: issue for issue in issues}` built left to right. -/
def issueDict (l : List Issue) (m : List (String × Issue)) : List (String × Issue) :=
  l.foldl (fun m i => dictSet m i.id i) m

/-- `unique_issues = {issue["id"]: issue for issue in issues}` then
`list(values)`: keys in first-occurrence order, last write wins. -/
def dedup_issues (issues : List Issue) : List Issue :=
  (issueDict issues []).map Prod.snd

/-- The file-hotness map: count issues per truthy file name. -/
def file_hotness_map (issues : List Issue) : List (String × Int) :=
  issues.foldl (fun m i =>
    match i.file with
    | some f => if f = "" then m else dictSet m f (assocGetD m f 0 + 1)
    | none => m) []

/-- The unknown-language warning appended for an unsupported tag. -/
def unknown_language_issue (lang : String) : Issue :=
  { id := "unknown-" ++ lang, category := "warning",
    message := "Language '" ++ lang ++ "' not supported.",
    severity := some "low" }

/-- One iteration of the per-language dispatch loop. -/
def manager_step (py_result js_result : AnalyzerResult)
    (acc : List Issue × List (String × FileReport) × List String) (lang : String) :
    List Issue × List (String × FileReport) × List String :=
  if lang = "py" then
    (acc.1 ++ py_result.issues, dictUpdate acc.2.1 py_result.files, acc.2.2 ++ ["py"])
  else if lang = "js" then
    (acc.1 ++ js_result.issues, dictUpdate acc.2.1 js_result.files, acc.2.2 ++ ["js"])
  else
    (acc.1 ++ [unknown_language_issue lang], acc.2.1, acc.2.2)

/-- The per-language dispatch loop: accumulated issues, files and
languages-used. -/
def manager_collect (languages : List String) (py_result js_result : AnalyzerResult) :
    List Issue × List (String × FileReport) × List String :=
  languages.foldl (manager_step py_result js_result) ([], [], [])

/-- The issue pipeline inside `analyze_repo`: synthetic ids, id-keyed
deduplication, hotness-based score enrichment. -/
def manager_issues (languages : List String) (py_result js_result : AnalyzerResult) :
    List Issue :=
  let issues2 := dedup_issues (assign_synthetic_ids (manager_collect languages py_result js_result).1)
  enrich_issues_with_scores issues2 (file_hotness_map issues2)

/-- `analyze_repo(path, languages=None, ...)` with the default languages
already substituted by the caller; raising `FileNotFoundError` is modelled as
`Except.error`. -/
def analyze_repo (root_exists : Bool) (languages : List String)
    (py_result js_result : AnalyzerResult) : Except String ManagerResult :=
  if !root_exists then Except.error "Path does not exist"
  else
    let step := manager_collect languages py_result js_result
    let issues3 := manager_issues languages py_result js_result
    Except.ok
      { overall_score := compute_overall_score issues3 (step.2.1.length : Int) 1,
        languages := step.2.2,
        issues := issues3,
        files := step.2.1 }

def except_is_ok {ε α : Type} : Except ε α → Bool
  | Except.ok _ => true
  | Except.error _ => false

/-! ### C8: fatal conditions and parse degradation -/

theorem mem_keys_dictSet {β : Type} (m : List (String × β)) (k : String) (v : β)
    (k' : String) :
    k' ∈ (dictSet m k v).map Prod.fst ↔ k' ∈ m.map Prod.fst ∨ k' = k := by
  induction m with
  | nil => simp [dictSet]
  | cons p t ih =>
      obtain ⟨k0, v0⟩ := p
      by_cases h : k0 = k
      · subst h
        simp [dictSet]
        tauto
      · simp [dictSet, h, ih]
        tauto

theorem keys_foldl_monotone (files : List PyFileInput)
    (m : List (String × FileReport)) (k : String) (hk : k ∈ m.map Prod.fst) :
    k ∈ (files.foldl (fun m f => dictSet m f.relPath (analyze_python_file f).1) m).map
        Prod.fst := by
  induction files generalizing m with
  | nil => exact hk
  | cons f t ih =>
      exact ih _ ((mem_keys_dictSet m f.relPath _ k).mpr (Or.inl hk))

theorem mem_keys_foldl (files : List PyFileInput) (m : List (String × FileReport))
    (g : PyFileInput) (hg : g ∈ files) :
    g.relPath ∈ (files.foldl (fun m f => dictSet m f.relPath (analyze_python_file f).1) m).map
        Prod.fst := by
  induction files generalizing m with
  | nil => cases hg
  | cons f t ih =>
      rcases List.mem_cons.mp hg with rfl | hg'
      · exact keys_foldl_monotone t _ _
          ((mem_keys_dictSet m g.relPath _ g.relPath).mpr (Or.inr rfl))
      · exact ih _ hg'

/-- C8 (amended): the entry point fails with a structured error IF AND ONLY
IF the root path does not exist — a root with NO recognized-language files
still returns a normal result (see the counterexample); and for any parsed
repo, a file whose parse failed contributes a `parsing` issue under its path
while every file (including that one) still has an entry in the per-file
results map. -/
theorem C8_fatal_and_degradation :
    (∀ (langs : List String) (pyr jsr : AnalyzerResult),
      analyze_repo false langs pyr jsr = Except.error "Path does not exist" ∧
      except_is_ok (analyze_repo true langs pyr jsr) = true) ∧
    (∀ (files : List PyFileInput) (pk : List String) (ht : Bool) (f : PyFileInput),
      f ∈ files → f.parsed = none →
      ∃ i, i ∈ (analyze_python_repo files pk ht).issues ∧
        i.category = "parsing" ∧ i.file = some f.relPath) ∧
    (∀ (files : List PyFileInput) (pk : List String) (ht : Bool) (g : PyFileInput),
      g ∈ files →
      g.relPath ∈ (analyze_python_repo files pk ht).files.map Prod.fst) := by
  refine ⟨fun langs pyr jsr => ⟨rfl, rfl⟩, ?_, ?_⟩
  · intro files pk ht f hf hparsed
    refine ⟨{ id := "PY-PARSE-" ++ py_hash_issue f.relPath 0 "parsing",
              category := "parsing", severity := some "medium",
              file := some f.relPath, lineno := none,
              message := "Failed to parse Python file.",
              evidence := some (f.source.take 200),
              suggestedFix := some "Ensure valid Python syntax." }, ?_, rfl, rfl⟩
    unfold analyze_python_repo
    refine List.mem_append.mpr (Or.inl ?_)
    refine List.mem_flatMap.mpr ⟨f, hf, ?_⟩
    unfold analyze_python_file
    rw [hparsed]
    exact List.mem_singleton.mpr rfl
  · intro files pk ht g hg
    exact mem_keys_foldl files [] g hg

/-- C8 counterexample: an existing root under which NO recognized-language
file was found (both analyzer results carry empty file maps) does NOT
produce a structured failure — `analyze_repo` returns a normal result, so
"fails ... if no recognized-language files are found" is false. -/
theorem C8_no_files_not_fatal_cex :
    except_is_ok (analyze_repo true ["py", "js"] (analyze_python_repo [] [] true)
      { language := "javascript", files := [], issues := [] }) = true ∧
    (analyze_python_repo [] [] true).files = [] := by
  exact ⟨rfl, rfl⟩

/-- Witness for C8 (amended) at a concrete input. -/
theorem C8_fatal_and_degradation_witness :
    (analyze_repo false ["py"] (analyze_python_repo [] [] true)
        { language := "javascript", files := [], issues := [] } =
      Except.error "Path does not exist" ∧
     except_is_ok (analyze_repo true ["py"] (analyze_python_repo [] [] true)
        { language := "javascript", files := [], issues := [] }) = true) ∧
    (∃ i, i ∈ (analyze_python_repo [⟨"bad.py", "def f(:", none⟩] [] true).issues ∧
      i.category = "parsing" ∧ i.file = some "bad.py") ∧
    ("bad.py" : String) ∈
      (analyze_python_repo [⟨"bad.py", "def f(:", none⟩] [] true).files.map Prod.fst :=
  ⟨C8_fatal_and_degradation.1 ["py"] (analyze_python_repo [] [] true)
     { language := "javascript", files := [], issues := [] },
   C8_fatal_and_degradation.2.1 [⟨"bad.py", "def f(:", none⟩] [] true
     ⟨"bad.py", "def f(:", none⟩ (List.mem_singleton.mpr rfl) rfl,
   C8_fatal_and_degradation.2.2 [⟨"bad.py", "def f(:", none⟩] [] true
     ⟨"bad.py", "def f(:", none⟩ (List.mem_singleton.mpr rfl)⟩

/-! ### C10: unknown language tags -/

/-- What one language tag contributes to the collected issue list. -/
def lang_contrib (pyr jsr : AnalyzerResult) (lang : String) : List Issue :=
  if lang = "py" then pyr.issues
  else if lang = "js" then jsr.issues
  else [unknown_language_issue lang]

theorem manager_step_issues (pyr jsr : AnalyzerResult)
    (acc : List Issue × List (String × FileReport) × List String) (lang : String) :
    (manager_step pyr jsr acc lang).1 = acc.1 ++ lang_contrib pyr jsr lang := by
  by_cases hp : lang = "py"
  · simp [manager_step, lang_contrib, hp]
  · by_cases hj : lang = "js"
    · simp [manager_step, lang_contrib, hp, hj]
    · simp [manager_step, lang_contrib, hp, hj]

theorem manager_collect_issues_aux (pyr jsr : AnalyzerResult) (langs : List String)
    (acc : List Issue × List (String × FileReport) × List String) :
    (langs.foldl (manager_step pyr jsr) acc).1 =
      acc.1 ++ langs.flatMap (lang_contrib pyr jsr) := by
  induction langs generalizing acc with
  | nil => simp
  | cons lang t ih =>
      rw [List.foldl_cons, ih, List.flatMap_cons, manager_step_issues,
        List.append_assoc]

theorem manager_collect_issues (langs : List String) (pyr jsr : AnalyzerResult) :
    (manager_collect langs pyr jsr).1 = langs.flatMap (lang_contrib pyr jsr) := by
  unfold manager_collect
  rw [manager_collect_issues_aux]
  rfl

theorem mem_assign_ids_from (n : Nat) (l : List Issue) (i : Issue)
    (hi : i ∈ assign_ids_from n l) :
    ∃ j ∈ l, i = j ∨
      (j.id = "" ∧ ∃ m : Nat, i = { j with id := "ISSUE-" ++ toString (m + 1) }) := by
  induction l generalizing n with
  | nil => cases hi
  | cons a t ih =>
      rcases List.mem_cons.mp hi with h | h
      · refine ⟨a, List.mem_cons_self a t, ?_⟩
        by_cases ha : a.id = ""
        · rw [if_pos ha] at h
          exact Or.inr ⟨ha, n, h⟩
        · rw [if_neg ha] at h
          exact Or.inl h
      · obtain ⟨j, hj, hc⟩ := ih (n + 1) h
        exact ⟨j, List.mem_cons_of_mem a hj, hc⟩

theorem assign_ids_from_keeps (n : Nat) (l : List Issue) (i : Issue)
    (hi : i ∈ l) (hne : i.id ≠ "") : i ∈ assign_ids_from n l := by
  induction l generalizing n with
  | nil => cases hi
  | cons a t ih =>
      simp only [assign_ids_from]
      rcases List.mem_cons.mp hi with rfl | h
      · rw [if_neg hne]
        exact List.mem_cons_self _ _
      · exact List.mem_cons_of_mem _ (ih (n + 1) h)

theorem unknown_id_ne_empty (t : String) : "unknown-" ++ t ≠ "" := by
  obtain ⟨td⟩ := t
  intro h
  have hd := congrArg String.data h
  simp at hd

theorem issue_id_ne_unknown (s t : String) : "ISSUE-" ++ s ≠ "unknown-" ++ t := by
  obtain ⟨sd⟩ := s
  obtain ⟨td⟩ := t
  intro h
  have hd := congrArg String.data h
  simp at hd

theorem unknown_id_inj (a b : String) (h : "unknown-" ++ a = "unknown-" ++ b) :
    a = b := by
  obtain ⟨ad⟩ := a
  obtain ⟨bd⟩ := b
  have hd := congrArg String.data h
  simp at hd
  rw [hd]

theorem mem_dictSet {β : Type} (m : List (String × β)) (k : String) (v : β)
    (p : String × β) (hp : p ∈ dictSet m k v) : p ∈ m ∨ p = (k, v) := by
  induction m with
  | nil => simpa [dictSet] using hp
  | cons q t ih =>
      obtain ⟨k0, v0⟩ := q
      by_cases h : k0 = k
      · subst h
        simp only [dictSet, if_pos rfl] at hp
        rcases List.mem_cons.mp hp with rfl | hp
        · exact Or.inr rfl
        · exact Or.inl (List.mem_cons_of_mem _ hp)
      · simp only [dictSet, if_neg h] at hp
        rcases List.mem_cons.mp hp with rfl | hp
        · exact Or.inl (List.mem_cons_self _ _)
        · rcases ih hp with h' | h'
          · exact Or.inl (List.mem_cons_of_mem _ h')
          · exact Or.inr h'

theorem issueDict_keyval (l : List Issue) (m : List (String × Issue))
    (hm : ∀ p ∈ m, p.1 = p.2.id) : ∀ p ∈ issueDict l m, p.1 = p.2.id := by
  induction l generalizing m with
  | nil => exact hm
  | cons i t ih =>
      refine ih _ (fun p hp => ?_)
      rcases mem_dictSet m i.id i p hp with h | rfl
      · exact hm p h
      · rfl

theorem issueDict_values (l : List Issue) (m : List (String × Issue))
    (p : String × Issue) (hp : p ∈ issueDict l m) : p.2 ∈ m.map Prod.snd ∨ p.2 ∈ l := by
  induction l generalizing m with
  | nil => exact Or.inl (List.mem_map_of_mem _ hp)
  | cons i t ih =>
      rcases ih _ hp with h | h
      · obtain ⟨q, hq, hq2⟩ := List.mem_map.mp h
        rcases mem_dictSet m i.id i q hq with h' | rfl
        · exact Or.inl (hq2 ▸ List.mem_map_of_mem _ h')
        · exact Or.inr (hq2 ▸ List.mem_cons_self _ _)
      · exact Or.inr (List.mem_cons_of_mem _ h)

theorem keys_nodup_dictSet {β : Type} (m : List (String × β)) (k : String) (v : β)
    (h : (m.map Prod.fst).Nodup) : ((dictSet m k v).map Prod.fst).Nodup := by
  induction m with
  | nil => simp [dictSet]
  | cons q t ih =>
      obtain ⟨k0, v0⟩ := q
      by_cases hk : k0 = k
      · subst hk
        simpa [dictSet] using h
      · simp only [List.map_cons, List.nodup_cons] at h
        obtain ⟨hnot, ht⟩ := h
        simp only [dictSet, if_neg hk, List.map_cons, List.nodup_cons]
        refine ⟨?_, ih ht⟩
        intro hmem
        rcases (mem_keys_dictSet t k v k0).mp hmem with h' | h'
        · exact hnot h'
        · exact hk h'

theorem issueDict_keys_nodup (l : List Issue) (m : List (String × Issue))
    (hm : (m.map Prod.fst).Nodup) : ((issueDict l m).map Prod.fst).Nodup := by
  induction l generalizing m with
  | nil => exact hm
  | cons i t ih => exact ih _ (keys_nodup_dictSet m i.id i hm)

theorem issueDict_key_mem (l : List Issue) (m : List (String × Issue)) (u : String) :
    u ∈ (issueDict l m).map Prod.fst ↔
      u ∈ m.map Prod.fst ∨ ∃ i ∈ l, i.id = u := by
  induction l generalizing m with
  | nil => simp [issueDict]
  | cons i t ih =>
      rw [show issueDict (i :: t) m = issueDict t (dictSet m i.id i) from rfl, ih,
        mem_keys_dictSet]
      constructor
      · rintro ((h | h) | ⟨j, hj, hju⟩)
        · exact Or.inl h
        · exact Or.inr ⟨i, List.mem_cons_self _ _, h.symm⟩
        · exact Or.inr ⟨j, List.mem_cons_of_mem _ hj, hju⟩
      · rintro (h | ⟨j, hj, hju⟩)
        · exact Or.inl (Or.inl h)
        · rcases List.mem_cons.mp hj with rfl | hj'
          · exact Or.inl (Or.inr hju.symm)
          · exact Or.inr ⟨j, hj', hju⟩

theorem filter_snd_length (m : List (String × Issue)) (u : String)
    (hkv : ∀ p ∈ m, p.1 = p.2.id) :
    ((m.map Prod.snd).filter (fun i => i.id = u)).length =
      m.countP (fun p => p.1 = u) := by
  induction m with
  | nil => rfl
  | cons p t ih =>
      have hp := hkv p (List.mem_cons_self p t)
      have ht : ∀ q ∈ t, q.1 = q.2.id := fun q hq => hkv q (List.mem_cons_of_mem p hq)
      by_cases h : p.2.id = u
      · rw [List.map_cons, List.filter_cons_of_pos (by simpa using h),
          List.countP_cons_of_pos _ _ (by simp [hp, h]), List.length_cons, ih ht]
      · rw [List.map_cons, List.filter_cons_of_neg (by simpa using h),
          List.countP_cons_of_neg _ _ (by simp [hp, h]), ih ht]

theorem countP_key_nodup (m : List (String × Issue)) (u : String)
    (h : (m.map Prod.fst).Nodup) :
    m.countP (fun p => p.1 = u) = if u ∈ m.map Prod.fst then 1 else 0 := by
  induction m with
  | nil => rfl
  | cons p t ih =>
      simp only [List.map_cons, List.nodup_cons] at h
      obtain ⟨hnot, ht⟩ := h
      by_cases hu : p.1 = u
      · subst hu
        rw [List.countP_cons_of_pos _ _ (by simp), ih ht, if_neg hnot, List.map_cons,
          if_pos (List.mem_cons_self _ _)]
      · rw [List.countP_cons_of_neg _ _ (by simp [hu]), ih ht, List.map_cons]
        by_cases hm : u ∈ t.map Prod.fst
        · rw [if_pos hm, if_pos (List.mem_cons_of_mem _ hm)]
        · rw [if_neg hm, if_neg (fun hc => by
            rcases List.mem_cons.mp hc with rfl | hc
            · exact hu rfl
            · exact hm hc)]

theorem enrich_filter_id_length (issues : List Issue) (hmap : List (String × Int))
    (u : String) :
    ((enrich_issues_with_scores issues hmap).filter (fun i => i.id = u)).length =
      (issues.filter (fun i => i.id = u)).length := by
  unfold enrich_issues_with_scores
  rw [List.filter_map, List.length_map]
  rfl

theorem mem_enrich (issues : List Issue) (hmap : List (String × Int)) (i : Issue)
    (hi : i ∈ enrich_issues_with_scores issues hmap) :
    ∃ j ∈ issues, i.id = j.id ∧ i.category = j.category ∧ i.severity = j.severity := by
  unfold enrich_issues_with_scores at hi
  obtain ⟨j, hj, hji⟩ := List.mem_map.mp hi
  exact ⟨j, hj, by rw [← hji], by rw [← hji], by rw [← hji]⟩

theorem unknown_issue_fields (lang : String) :
    (unknown_language_issue lang).category = "warning" ∧
    (unknown_language_issue lang).severity = some "low" := ⟨rfl, rfl⟩

/-- C10: an unsupported language tag on an existing root does not raise and
does not vanish: the run returns a normal result whose issue list contains
EXACTLY ONE issue with id `unknown-<tag>`, and every issue with that id has
category "warning" and severity "low".  (The freshness hypothesis states
that no analyzer-produced issue uses that id; the analyzers only mint
`PY-`/`JS-`-prefixed or `ISSUE-` ids.) -/
theorem C10_unknown_language (langs : List String) (tag : String)
    (pyr jsr : AnalyzerResult)
    (hpy : tag ≠ "py") (hjs : tag ≠ "js") (hmem : tag ∈ langs)
    (hfresh : ∀ i, (i ∈ pyr.issues ∨ i ∈ jsr.issues) → i.id ≠ "unknown-" ++ tag) :
    except_is_ok (analyze_repo true langs pyr jsr) = true ∧
    ∀ res, analyze_repo true langs pyr jsr = Except.ok res →
      (res.issues.filter (fun i => i.id = "unknown-" ++ tag)).length = 1 ∧
      ∀ i ∈ res.issues, i.id = "unknown-" ++ tag →
        i.category = "warning" ∧ i.severity = some "low" := by
  have hA : ∀ j ∈ assign_synthetic_ids (manager_collect langs pyr jsr).1,
      j.id = "unknown-" ++ tag →
      j.category = "warning" ∧ j.severity = some "low" := by
    intro j hj hju
    obtain ⟨k, hk, hcase⟩ := mem_assign_ids_from 0 _ j hj
    rcases hcase with rfl | ⟨_, m, rfl⟩
    · rw [manager_collect_issues] at hk
      obtain ⟨lang, _, hcontrib⟩ := List.mem_flatMap.mp hk
      unfold lang_contrib at hcontrib
      by_cases hp : lang = "py"
      · rw [if_pos hp] at hcontrib
        exact absurd hju (hfresh j (Or.inl hcontrib))
      · rw [if_neg hp] at hcontrib
        by_cases hq : lang = "js"
        · rw [if_pos hq] at hcontrib
          exact absurd hju (hfresh j (Or.inr hcontrib))
        · rw [if_neg hq] at hcontrib
          rw [List.mem_singleton.mp hcontrib]
          exact unknown_issue_fields lang
    · exact absurd hju (issue_id_ne_unknown _ _)
  constructor
  · rfl
  · intro res hres
    have hiss : res.issues = manager_issues langs pyr jsr :=
      (congrArg (fun e => match e with
        | Except.ok r => r.issues
        | Except.error _ => ([] : List Issue)) hres).symm
    rw [hiss]
    constructor
    · unfold manager_issues dedup_issues
      rw [enrich_filter_id_length,
        filter_snd_length _ _ (issueDict_keyval _ [] (by intro p hp; cases hp)),
        countP_key_nodup _ _ (issueDict_keys_nodup _ [] (by simp)),
        if_pos]
      rw [issueDict_key_mem]
      refine Or.inr ⟨unknown_language_issue tag, ?_, rfl⟩
      refine assign_ids_from_keeps 0 _ _ ?_ (unknown_id_ne_empty tag)
      rw [manager_collect_issues]
      refine List.mem_flatMap.mpr ⟨tag, hmem, ?_⟩
      unfold lang_contrib
      rw [if_neg hpy, if_neg hjs]
      exact List.mem_singleton.mpr rfl
    · intro i hi hiu
      obtain ⟨j, hj, hid, hcat, hsev⟩ := mem_enrich _ _ i hi
      obtain ⟨p, hp, hpj⟩ := List.mem_map.mp hj
      have hjA : j ∈ assign_synthetic_ids (manager_collect langs pyr jsr).1 := by
        rcases issueDict_values _ [] p hp with h | h
        · simp at h
        · exact hpj ▸ h
      have := hA j hjA (by rw [← hid, hiu])
      exact ⟨hcat.trans this.1, hsev.trans this.2⟩

/-- Witness for C10 at a concrete input ("rb" is not a supported tag). -/
theorem C10_unknown_language_witness :
    except_is_ok (analyze_repo true ["py", "rb"] (analyze_python_repo [] [] true)
      { language := "javascript", files := [], issues := [] }) = true ∧
    ∀ res, analyze_repo true ["py", "rb"] (analyze_python_repo [] [] true)
        { language := "javascript", files := [], issues := [] } = Except.ok res →
      (res.issues.filter (fun i => i.id = "unknown-" ++ "rb")).length = 1 ∧
      ∀ i ∈ res.issues, i.id = "unknown-" ++ "rb" →
        i.category = "warning" ∧ i.severity = some "low" :=
  C10_unknown_language ["py", "rb"] "rb" (analyze_python_repo [] [] true)
    { language := "javascript", files := [], issues := [] }
    (by decide) (by decide) (by decide)
    (fun i h => by
      rcases h with h | h
      · simp [analyze_python_repo, py_testing_issues] at h
      · simp at h)

/-! ## `src/core/dep_graph.py`

`build_python_symbol_table` / `resolve_crossrefs` live in `config/ast_parser.py`
(external to the scoring core's claims); the call-graph entries they produce
are the input here.  `nodes_set` is a Python `set`, whose iteration order is
implementation-defined (string hashing is seed-randomised in CPython), so the
embedding takes that enumeration order as the explicit `enumOrder` argument;
the claims are settled for every possible order.  The optional networkx
branch only mirrors the already-computed nodes/edges and is not modelled. -/

structure CrossRef where
  caller_file : Option String
  callee_module : Option String
deriving Repr, DecidableEq

structure GraphNode where
  id : String
  label : String
  hotness : Nat
deriving Repr, DecidableEq

structure GraphEdge where
  source : String
  target : String
  weight : Nat
deriving Repr, DecidableEq

structure HotspotEntry where
  id : String
  score : Nat
deriving Repr, DecidableEq

structure DepGraph where
  nodes : List GraphNode
  edges : List GraphEdge
  hotspots : List HotspotEntry
deriving Repr, DecidableEq

/-- Python truthiness of `ref.get(..)`: `None` and `""` are falsy. -/
def truthyStr : Option String → Option String
  | some s => if s = "" then none else some s
  | none => none

/-- `edge_weights[key] = edge_weights.get(key, 0) + 1`, insertion-ordered. -/
def bumpEdge : List ((String × String) × Nat) → (String × String) →
    List ((String × String) × Nat)
  | [], k => [(k, 1)]
  | (k0, n) :: t, k =>
      if k0 = k then (k0, n + 1) :: t else (k0, n) :: bumpEdge t k

def dep_edge_weights (cg : List CrossRef) : List ((String × String) × Nat) :=
  cg.foldl (fun m ref =>
    match truthyStr ref.caller_file, truthyStr ref.callee_module with
    | some src, some dst => bumpEdge m (src, dst)
    | _, _ => m) []

/-- `node_hotness` as a finitely-supported map: zero-initialised over the
node set, then `+= w` at the source and target of every weighted edge. -/
def dep_node_hotness (ew : List ((String × String) × Nat)) : String → Nat :=
  ew.foldl (fun h p =>
    let h1 := fun n => if n = p.1.1 then h n + p.2 else h n
    fun n => if n = p.1.2 then h1 n + p.2 else h1 n) (fun _ => 0)

/-- Stable insertion for a descending sort: an element goes after every
element whose score is at least its own. -/
def insertDesc (x : HotspotEntry) : List HotspotEntry → List HotspotEntry
  | [] => [x]
  | y :: t => if x.score > y.score then x :: y :: t else y :: insertDesc x t

/-- A stable descending sort by score — extensionally THE result of Python
`sorted(entries, key=score, reverse=True)`, which is stable with ties kept
in input order. -/
def stableSortDesc (l : List HotspotEntry) : List HotspotEntry :=
  l.foldl (fun acc x => insertDesc x acc) []

/-- `build_dep_graph`, with the node set's iteration order as input. -/
def build_dep_graph (cg : List CrossRef) (enumOrder : List String) : DepGraph :=
  let ew := dep_edge_weights cg
  let hot := dep_node_hotness ew
  { nodes := enumOrder.map (fun n => ⟨n, n, hot n⟩),
    edges := ew.map (fun p => ⟨p.1.1, p.1.2, p.2⟩),
    hotspots := (stableSortDesc (enumOrder.map (fun n => ⟨n, hot n⟩))).take 5 }

/-! ### C9 lemmas -/

theorem dep_hotness_foldl (ew : List ((String × String) × Nat))
    (h0 : String → Nat) (n : String) :
    (ew.foldl (fun h p =>
      let h1 := fun n => if n = p.1.1 then h n + p.2 else h n
      fun n => if n = p.1.2 then h1 n + p.2 else h1 n) h0) n =
      h0 n + (ew.map (fun p =>
        (if n = p.1.1 then p.2 else 0) + (if n = p.1.2 then p.2 else 0))).sum := by
  induction ew generalizing h0 with
  | nil => simp
  | cons p t ih =>
      rw [List.foldl_cons, ih, List.map_cons, List.sum_cons]
      show (if n = p.1.2 then (if n = p.1.1 then h0 n + p.2 else h0 n) + p.2
            else (if n = p.1.1 then h0 n + p.2 else h0 n)) + _ = _
      split_ifs <;> omega

theorem dep_node_hotness_eq (cg : List CrossRef) (n : String) :
    dep_node_hotness (dep_edge_weights cg) n =
      ((dep_edge_weights cg).map (fun p =>
        (if n = p.1.1 then p.2 else 0) + (if n = p.1.2 then p.2 else 0))).sum := by
  unfold dep_node_hotness
  rw [dep_hotness_foldl]
  exact Nat.zero_add _

theorem insertDesc_perm (x : HotspotEntry) (l : List HotspotEntry) :
    (insertDesc x l).Perm (x :: l) := by
  induction l with
  | nil => exact List.Perm.refl _
  | cons y t ih =>
      unfold insertDesc
      by_cases h : x.score > y.score
      · rw [if_pos h]
      · rw [if_neg h]
        exact (List.Perm.cons y ih).trans (List.Perm.swap x y t)

theorem insertDesc_sorted (x : HotspotEntry) (l : List HotspotEntry)
    (h : l.Pairwise (fun a b => b.score ≤ a.score)) :
    (insertDesc x l).Pairwise (fun a b => b.score ≤ a.score) := by
  induction l with
  | nil => simp [insertDesc]
  | cons y t ih =>
      rcases List.pairwise_cons.mp h with ⟨hy, ht⟩
      unfold insertDesc
      by_cases hxy : x.score > y.score
      · rw [if_pos hxy]
        refine List.pairwise_cons.mpr ⟨?_, h⟩
        intro z hz
        rcases List.mem_cons.mp hz with rfl | hz'
        · omega
        · have := hy z hz'
          omega
      · rw [if_neg hxy]
        refine List.pairwise_cons.mpr ⟨?_, ih ht⟩
        intro z hz
        have hz' := (insertDesc_perm x t).mem_iff.mp hz
        rcases List.mem_cons.mp hz' with rfl | hz''
        · omega
        · exact hy z hz''

theorem stableSortDesc_perm_aux (l acc : List HotspotEntry) :
    (l.foldl (fun acc x => insertDesc x acc) acc).Perm (acc ++ l) := by
  induction l generalizing acc with
  | nil => simp
  | cons x t ih =>
      exact (ih _).trans
        (((insertDesc_perm x acc).append_right t).trans List.perm_middle.symm)

theorem stableSortDesc_perm (l : List HotspotEntry) : (stableSortDesc l).Perm l :=
  stableSortDesc_perm_aux l []

theorem stableSortDesc_sorted_aux (l acc : List HotspotEntry)
    (hacc : acc.Pairwise (fun a b => b.score ≤ a.score)) :
    (l.foldl (fun acc x => insertDesc x acc) acc).Pairwise
      (fun a b => b.score ≤ a.score) := by
  induction l generalizing acc with
  | nil => exact hacc
  | cons x t ih => exact ih _ (insertDesc_sorted x acc hacc)

theorem stableSortDesc_sorted (l : List HotspotEntry) :
    (stableSortDesc l).Pairwise (fun a b => b.score ≤ a.score) :=
  stableSortDesc_sorted_aux l [] (List.Pairwise.nil)

/-- C9 (amended): in the built graph, every node's hotness is the sum of the
weights of the edges incident to it (a self-loop counts twice, once as
source and once as target); the hotspots are the first five entries of the
stable descending sort of the node set in ITS OWN iteration order — a
permutation of all nodes, sorted by non-increasing score, so they are a
top-5 by hotness, but ties are kept in set-iteration order, not identifier
order. -/
theorem C9_hotness_hotspots (cg : List CrossRef) (enumOrder : List String) :
    ((build_dep_graph cg enumOrder).nodes.map (fun nd => (nd.id, nd.hotness)) =
      enumOrder.map (fun n => (n,
        ((dep_edge_weights cg).map (fun p =>
          (if n = p.1.1 then p.2 else 0) + (if n = p.1.2 then p.2 else 0))).sum))) ∧
    ((build_dep_graph cg enumOrder).hotspots =
      (stableSortDesc (enumOrder.map (fun n =>
        ⟨n, dep_node_hotness (dep_edge_weights cg) n⟩))).take 5) ∧
    ((build_dep_graph cg enumOrder).hotspots.length = min 5 enumOrder.length) ∧
    ((build_dep_graph cg enumOrder).hotspots.Pairwise
      (fun a b => b.score ≤ a.score)) ∧
    ((stableSortDesc (enumOrder.map (fun n =>
        ⟨n, dep_node_hotness (dep_edge_weights cg) n⟩))).Perm
      (enumOrder.map (fun n => ⟨n, dep_node_hotness (dep_edge_weights cg) n⟩))) ∧
    (∀ x ∈ (build_dep_graph cg enumOrder).hotspots,
      ∀ y ∈ (stableSortDesc (enumOrder.map (fun n =>
        ⟨n, dep_node_hotness (dep_edge_weights cg) n⟩))).drop 5,
        y.score ≤ x.score) := by
  refine ⟨?_, rfl, ?_, ?_, stableSortDesc_perm _, ?_⟩
  · show (enumOrder.map (fun n =>
        (⟨n, n, dep_node_hotness (dep_edge_weights cg) n⟩ : GraphNode))).map
          (fun nd => (nd.id, nd.hotness)) = _
    rw [List.map_map]
    refine List.map_congr_left (fun n _ => ?_)
    show (n, dep_node_hotness (dep_edge_weights cg) n) = _
    rw [dep_node_hotness_eq]
  · show ((stableSortDesc _).take 5).length = _
    rw [List.length_take, (stableSortDesc_perm _).length_eq, List.length_map]
  · exact List.Pairwise.sublist (List.take_sublist 5 _) (stableSortDesc_sorted _)
  · intro x hx y hy
    have hs := stableSortDesc_sorted (enumOrder.map (fun n =>
      ⟨n, dep_node_hotness (dep_edge_weights cg) n⟩))
    rw [← List.take_append_drop 5 (stableSortDesc _)] at hs
    exact (List.pairwise_append.mp hs).2.2 x hx y hy

/-- C9 counterexample: the tie-break is NOT identifier ordering.  With one
call edge b→a both nodes have hotness 1; `["b", "a"]` is a legitimate
CPython set-iteration order for `{"b", "a"}` (string hashing is
seed-randomised), and the stable sort then lists the hotspots as b before a,
not in identifier order a, b. -/
theorem C9_tie_order_cex :
    ((build_dep_graph [⟨some "b", some "a"⟩] ["b", "a"]).hotspots.map
      (fun h => h.id)) = ["b", "a"] ∧
    ((build_dep_graph [⟨some "b", some "a"⟩] ["b", "a"]).hotspots.map
      (fun h => h.score)) = [1, 1] ∧
    (["b", "a"] : List String) ≠ ["a", "b"] := by
  refine ⟨by decide, by decide, by decide⟩

/-- Witness for C9 at a concrete input (six nodes, no edges: the sixth node
is dropped from the top five and is dominated by every hotspot). -/
theorem C9_hotness_hotspots_witness :
    (⟨"a", 0⟩ : HotspotEntry) ∈
      (build_dep_graph [] ["a", "b", "c", "d", "e", "f"]).hotspots ∧
    (⟨"f", 0⟩ : HotspotEntry) ∈
      (stableSortDesc (["a", "b", "c", "d", "e", "f"].map (fun n =>
        ⟨n, dep_node_hotness (dep_edge_weights []) n⟩))).drop 5 ∧
    (⟨"f", 0⟩ : HotspotEntry).score ≤ (⟨"a", 0⟩ : HotspotEntry).score :=
  ⟨by decide, by decide,
   (C9_hotness_hotspots [] ["a", "b", "c", "d", "e", "f"]).2.2.2.2.2
     ⟨"a", 0⟩ (by decide) ⟨"f", 0⟩ (by decide)⟩
